import Mathlib

/-!
# Verification of the snowsite CSV diff engine

Shallow embedding of the hash-based CSV comparison engine from
`src/lib/merge-engine.ts` (class `EfficientDiffer` and the helpers it uses)
together with the configuration constants from `src/lib/config.ts`, and proofs
of the behavioural claims about it.

Modelling conventions:

* A parsed CSV row (`Record<string, string>` in the source) is an association
  list from column name to cell value; a column that is absent from the row
  corresponds to a `none` lookup, matching `row[k]` being `undefined`.
* JavaScript `Map` objects are modelled as association lists whose `set`
  keeps the position of the first insertion and overwrites the value
  (`mapUpsert`), exactly like `Map.prototype.set`; iteration order of the
  model list is the `Map` insertion order.
* The djb2-xor hash is computed over UTF-16 code units exactly as
  `charCodeAt` yields them; we keep the resulting unsigned 32-bit value as a
  `Nat`.  The source renders it as a zero-padded 8-digit hex string, which is
  injective on values below 2^32, so digest equality coincides with equality
  of the modelled value.
* `trim`/`toLowerCase` are modelled for the ASCII range (plus the common
  non-ASCII space characters for `trim`); the source's full Unicode versions
  agree with the model on all data appearing in the development.
* The bounded example collections (`example_ids`, `example_ids_added`,
  `example_ids_removed`) and the per-entry display keys / line numbers that
  feed only those collections are presentation artifacts and are not part of
  the modelled result; no modelled field depends on them.
-/

set_option autoImplicit false

namespace CsvDiff

/-- A parsed CSV row: association list from column name to raw cell value. -/
abbrev Row := List (String × String)

/-- Row lookup, `row[k]`: `none` models JavaScript `undefined`. -/
def getCell (r : Row) (k : String) : Option String :=
  (r.find? fun p => p.1 == k).map (·.2)

/-- `row[k] ?? ''` — the ubiquitous defaulted lookup of the source. -/
def cellD (r : Row) (k : String) : String :=
  (getCell r k).getD ""

/-- The whitespace set of JavaScript `String.prototype.trim` (ASCII part plus
NBSP and BOM; the remaining Unicode space characters never occur in the
development and are omitted). -/
def isJsSpace (c : Char) : Bool :=
  c == ' ' || c == '\t' || c == '\n' || c == '\r' ||
  c == '\x0b' || c == '\x0c' || c == ' ' || c == '﻿'

/-- JavaScript `value.trim()`: strip leading and trailing whitespace. -/
def jsTrim (s : String) : String :=
  ⟨((s.data.dropWhile isJsSpace).reverse.dropWhile isJsSpace).reverse⟩

/-- JavaScript `toLowerCase` on a character, ASCII range. -/
def jsLowerChar (c : Char) : Char :=
  if 'A' ≤ c ∧ c ≤ 'Z' then Char.ofNat (c.toNat + 32) else c

/-- JavaScript `value.toLowerCase()` (ASCII range). -/
def jsToLower (s : String) : String :=
  ⟨s.data.map jsLowerChar⟩

/-- The UTF-16 code units of a string, exactly what `charCodeAt` iterates. -/
def utf16Units (s : String) : List Nat :=
  s.data.foldr
    (fun c acc =>
      let n := c.toNat
      if n < 65536 then n :: acc
      else (55296 + (n - 65536) / 1024) :: (56320 + (n - 65536) % 1024) :: acc)
    []

/-- One step of the djb2-xor hash: `hash = ((hash << 5) + hash) ^ code`,
on the 32-bit bit pattern (JavaScript's `<<`, `+`, `^` sequence acts as
multiplication by 33 modulo 2^32 followed by xor). -/
def hashStep (h c : Nat) : Nat :=
  Nat.xor ((h * 33) % 4294967296) c

/-- `hashString` of the source: djb2-xor over the UTF-16 code units, seed
5381; we keep the `>>> 0` unsigned 32-bit value (see module comment). -/
def hashString (s : String) : Nat :=
  (utf16Units s).foldl hashStep 5381

/-- Substring containment on character lists, modelling
`String.prototype.includes`. -/
def charListIsInfix (pat : List Char) : List Char → Bool
  | [] => pat.isEmpty
  | c :: cs => pat.isPrefixOf (c :: cs) || charListIsInfix pat cs

/-- Lexicographic strict order on character lists; models the JavaScript `<`
comparison used by the default `Array.prototype.sort` on strings. -/
def charListLt : List Char → List Char → Bool
  | [], [] => false
  | [], _ :: _ => true
  | _ :: _, [] => false
  | a :: as, b :: bs =>
    if a < b then true else if b < a then false else charListLt as bs

/-- JavaScript string `<`. -/
def strLt (a b : String) : Bool :=
  charListLt a.data b.data

/-- Insert into a sorted list, keeping earlier elements first on ties. -/
def insertSorted (x : String) : List String → List String
  | [] => [x]
  | y :: ys => if strLt x y then x :: y :: ys else y :: insertSorted x ys

/-- `array.sort()` with the default string comparator (insertion sort; any
correct sort produces the same list). -/
def sortStrings (l : List String) : List String :=
  l.foldr insertSorted []

/-- Spreading a JavaScript `Set` built from a list: the distinct elements in
order of first occurrence (`[...new Set(l)]`). -/
def dedupFirstFrom (acc : List String) : List String → List String
  | [] => acc
  | x :: xs =>
    if decide (x ∈ acc) then dedupFirstFrom acc xs
    else dedupFirstFrom (acc ++ [x]) xs

/-- Distinct elements of a list in order of first occurrence. -/
def dedupFirst (l : List String) : List String :=
  dedupFirstFrom [] l

/-- `array.join(sep)`. -/
def joinSep (sep : String) : List String → String
  | [] => ""
  | [x] => x
  | x :: y :: xs => x ++ sep ++ joinSep sep (y :: xs)

/-! ## Configuration constants (`src/lib/config.ts`) -/

/-- `EXCLUDED_COLUMN_PATTERNS`: substring patterns marking columns whose
changes are not "meaningful". -/
def EXCLUDED_COLUMN_PATTERNS : List String :=
  ["inventory", "availability"]

/-- `COMMON_PRIMARY_KEY_NAMES`: id-like column names tried, in order, by
primary key auto-detection. -/
def COMMON_PRIMARY_KEY_NAMES : List String :=
  ["id", "ID", "Id", "sku", "SKU", "Sku", "uuid", "UUID", "key", "KEY",
   "product_id", "productId", "item_id", "itemId"]

/-- `isExcludedColumn` from `config.ts`: a column is excluded when its
lowercased name contains some lowercased pattern as a substring. -/
def isExcludedColumn (columnName : String) (patterns : List String) : Bool :=
  patterns.any fun pat =>
    charListIsInfix (jsToLower pat).data (jsToLower columnName).data

/-! ## Row-level primitives of the differ -/

/-- `makeCompositeKey`: primary key values (missing cells default to the
empty string via `?? ''`) joined with `||`. -/
def makeCompositeKey (row : Row) (primaryKeys : List String) : String :=
  joinSep "||" (primaryKeys.map fun k => cellD row k)

/-- `getDisplayKey`: human-readable key; a missing (`undefined`) component is
rendered as the literal `<missing>`; multi-column keys join with `_`. -/
def getDisplayKey (row : Row) (primaryKeys : List String) : String :=
  match primaryKeys with
  | [k] => (getCell row k).getD "<missing>"
  | _ => joinSep "_" (primaryKeys.map fun k => (getCell row k).getD "<missing>")

/-- `normalizeValue`: optional trim, then optional lowercasing. -/
def normalizeValue (value : String) (caseSensitive trimWhitespace : Bool) : String :=
  let v := if trimWhitespace then jsTrim value else value
  if caseSensitive then v else jsToLower v

/-- `hashRow`: sort the column names, normalize each (missing cells default
to the empty string), join with `|`, and hash.  The per-value normalization
in the source is literally the body of `normalizeValue`. -/
def hashRow (row : Row) (keys : List String) (caseSensitive trimWhitespace : Bool) : Nat :=
  hashString (joinSep "|"
    ((sortStrings keys).map fun k => normalizeValue (cellD row k) caseSensitive trimWhitespace))

/-! ## Data model of `computeDiff` -/

/-- A parsed CSV file (`ParsedCSV` of `types/csv.ts`, minus the filename). -/
structure ParsedCSV where
  headers : List String
  rows : List Row
  rowCount : Nat
deriving DecidableEq

/-- The resolved options of an `EfficientDiffer` instance (`maxExamples`
only caps the unmodelled example collections and is omitted). -/
structure DiffOptions where
  primaryKeys : List String
  excludedPatterns : List String
  caseSensitive : Bool
  trimWhitespace : Bool
deriving DecidableEq

/-- A row index entry: 1-based line number, hash over all common columns,
hash over the comparison (non-excluded common) columns.  The source also
stores a display key used only for the unmodelled example reports. -/
structure IndexEntry where
  lineNum : Nat
  fullHash : Nat
  compHash : Nat
deriving DecidableEq

/-- `Map.prototype.get` on the association-list model. -/
def mapGet {β : Type} (m : List (String × β)) (k : String) : Option β :=
  (m.find? fun p => p.1 == k).map (·.2)

/-- `Map.prototype.set`: overwrite in place if the key is present (keeping
the original insertion position), otherwise append. -/
def mapUpsert {β : Type} (m : List (String × β)) (k : String) (v : β) : List (String × β) :=
  if m.any fun p => p.1 == k then
    m.map fun p => if p.1 == k then (k, v) else p
  else
    m ++ [(k, v)]

/-- The index entry computed for one row: when the comparison column set is
empty the comparison hash is defined to be the full hash
(`comparisonKeys.length > 0 ? hashRow(...) : fullHash`). -/
def indexEntry (opts : DiffOptions) (commonKeys comparisonKeys : List String)
    (lineNum : Nat) (row : Row) : IndexEntry :=
  let fullHash := hashRow row commonKeys opts.caseSensitive opts.trimWhitespace
  { lineNum := lineNum
    fullHash := fullHash
    compHash :=
      if 0 < comparisonKeys.length then
        hashRow row comparisonKeys opts.caseSensitive opts.trimWhitespace
      else fullHash }

/-- Index construction (phase 1 for the production file, the identical
computation in phase 2 for the development file): line numbers are 1-based,
later rows with the same composite key overwrite earlier ones. -/
def buildIndexFrom (opts : DiffOptions) (commonKeys comparisonKeys : List String) :
    Nat → List (String × IndexEntry) → List Row → List (String × IndexEntry)
  | _, m, [] => m
  | n, m, row :: rest =>
    buildIndexFrom opts commonKeys comparisonKeys (n + 1)
      (mapUpsert m (makeCompositeKey row opts.primaryKeys)
        (indexEntry opts commonKeys comparisonKeys n row))
      rest

/-- Index of a whole file. -/
def buildIndex (opts : DiffOptions) (commonKeys comparisonKeys : List String)
    (rows : List Row) : List (String × IndexEntry) :=
  buildIndexFrom opts commonKeys comparisonKeys 1 [] rows

/-- The added-key bookkeeping of phase 2: a development row's key is recorded
(and `rowsAdded` incremented) exactly when it is absent from the production
index and not yet recorded. -/
def addedKeysFrom (opts : DiffOptions) (prodIdx : List (String × IndexEntry)) :
    List String → List Row → List String
  | acc, [] => acc
  | acc, row :: rest =>
    let k := makeCompositeKey row opts.primaryKeys
    if (mapGet prodIdx k).isNone && !(decide (k ∈ acc)) then
      addedKeysFrom opts prodIdx (acc ++ [k]) rest
    else
      addedKeysFrom opts prodIdx acc rest

/-- All distinct development keys absent from the production index, in order
of first occurrence; its length is `rows_added`. -/
def addedKeyList (opts : DiffOptions) (prodIdx : List (String × IndexEntry))
    (devRows : List Row) : List String :=
  addedKeysFrom opts prodIdx [] devRows

/-- A matched development entry whose full hash differs from production. -/
def changedPred (prodIdx : List (String × IndexEntry)) (kd : String × IndexEntry) : Bool :=
  match mapGet prodIdx kd.1 with
  | some p => kd.2.fullHash != p.fullHash
  | none => false

/-- A matched changed entry whose comparison hash also differs: counted in
`rows_updated`. -/
def meaningfulPred (prodIdx : List (String × IndexEntry)) (kd : String × IndexEntry) : Bool :=
  match mapGet prodIdx kd.1 with
  | some p => kd.2.fullHash != p.fullHash && kd.2.compHash != p.compHash
  | none => false

/-- A matched changed entry whose comparison hash agrees: counted in
`rows_updated_excluded_only`. -/
def excludedOnlyPred (prodIdx : List (String × IndexEntry)) (kd : String × IndexEntry) : Bool :=
  match mapGet prodIdx kd.1 with
  | some p => kd.2.fullHash != p.fullHash && kd.2.compHash == p.compHash
  | none => false

/-- `allChangedKeys` of phase 2 (development-index iteration order). -/
def allChangedKeys (prodIdx devIdx : List (String × IndexEntry)) : List String :=
  (devIdx.filter (changedPred prodIdx)).map Prod.fst

/-- `meaningfulChangeKeys`; the length is `rowsChangedMeaningful`. -/
def meaningfulKeys (prodIdx devIdx : List (String × IndexEntry)) : List String :=
  (devIdx.filter (meaningfulPred prodIdx)).map Prod.fst

/-- `excludedOnlyKeys`; the length is `rowsChangedExcludedOnly`. -/
def excludedOnlyKeys (prodIdx devIdx : List (String × IndexEntry)) : List String :=
  (devIdx.filter (excludedOnlyPred prodIdx)).map Prod.fst

/-- Production keys absent from the development index; the length is
`rowsRemoved`. -/
def removedKeys (devIdx prodIdx : List (String × IndexEntry)) : List String :=
  (prodIdx.filter fun kp => (mapGet devIdx kp.1).isNone).map Prod.fst

/-- The per-changed-row projection to common columns built in phase 3
(`filtered`), with `?? ''` defaulting. -/
def filteredRow (commonKeys : List String) (row : Row) : Row :=
  commonKeys.map fun k => (k, cellD row k)

/-- Phase 3 lookup construction (`neededProdRows` / `neededDevRows`): only
rows whose composite key changed, projected to common columns, last
occurrence winning.  (The development variant also records a line number,
used only for the unmodelled examples.) -/
def neededRowsFrom (opts : DiffOptions) (commonKeys : List String) (changed : List String) :
    List (String × Row) → List Row → List (String × Row)
  | m, [] => m
  | m, row :: rest =>
    let k := makeCompositeKey row opts.primaryKeys
    if decide (k ∈ changed) then
      neededRowsFrom opts commonKeys changed (mapUpsert m k (filteredRow commonKeys row)) rest
    else
      neededRowsFrom opts commonKeys changed m rest

/-- Phase 3 lookup for a whole file. -/
def neededRows (opts : DiffOptions) (commonKeys : List String) (changed : List String)
    (rows : List Row) : List (String × Row) :=
  neededRowsFrom opts commonKeys changed [] rows

/-- `detailedChanges[key] = (detailedChanges[key] ?? 0) + 1`. -/
def bumpCount (m : List (String × Nat)) (k : String) : List (String × Nat) :=
  mapUpsert m k ((mapGet m k).getD 0 + 1)

/-- The column-by-column pass of phase 3 over one changed row pair: a common
column is tallied when its normalized values differ and it is not excluded. -/
def rowDetailed (opts : DiffOptions) (commonKeys : List String) (prodRow devRow : Row)
    (dc : List (String × Nat)) : List (String × Nat) :=
  commonKeys.foldl
    (fun dc col =>
      let pv := normalizeValue (cellD prodRow col) opts.caseSensitive opts.trimWhitespace
      let dv := normalizeValue (cellD devRow col) opts.caseSensitive opts.trimWhitespace
      if pv != dv && !(isExcludedColumn col opts.excludedPatterns) then bumpCount dc col
      else dc)
    dc

/-- `detailed_key_update_counts`: fold phase 3 over all changed keys (keys
missing from either lookup are skipped, as in the source's `continue`). -/
def detailedChanges (opts : DiffOptions) (commonKeys : List String) (changed : List String)
    (needP needD : List (String × Row)) : List (String × Nat) :=
  changed.foldl
    (fun dc k =>
      match mapGet needP k, mapGet needD k with
      | some pr, some dr => rowDetailed opts commonKeys pr dr dc
      | _, _ => dc)
    []

/-! ## `computeDiff` -/

/-- Which input file a configuration error refers to. -/
inductive DatasetSide
  | production
  | development
deriving DecidableEq

/-- The "missing primary key column(s)" error: the source throws an `Error`
whose message interpolates exactly these three data (`Primary keys [...] not
found in ... file. Available columns: ...`). -/
structure DiffError where
  side : DatasetSide
  missingKeys : List String
  availableColumns : List String
deriving DecidableEq

/-- The modelled fields of `DiffResult` (scalar counts, per-column change
counts, column partitions, input sizes; example collections unmodelled). -/
structure DiffResult where
  rows_added : Nat
  rows_removed : Nat
  rows_updated : Nat
  rows_updated_excluded_only : Nat
  detailed_key_update_counts : List (String × Nat)
  common_keys : List String
  prod_only_keys : List String
  dev_only_keys : List String
  prod_row_count : Nat
  dev_row_count : Nat
deriving DecidableEq

/-- `[...prodHeaders].filter(h => devHeaders.has(h))`: columns present in
both files, in production (first-occurrence) order. -/
def commonKeysOf (prodCsv devCsv : ParsedCSV) : List String :=
  (dedupFirst prodCsv.headers).filter fun h => decide (h ∈ devCsv.headers)

/-- Columns only in the production file. -/
def prodOnlyKeysOf (prodCsv devCsv : ParsedCSV) : List String :=
  (dedupFirst prodCsv.headers).filter fun h => !(decide (h ∈ devCsv.headers))

/-- Columns only in the development file. -/
def devOnlyKeysOf (prodCsv devCsv : ParsedCSV) : List String :=
  (dedupFirst devCsv.headers).filter fun h => !(decide (h ∈ prodCsv.headers))

/-- The comparison columns: common columns not matching an excluded pattern. -/
def comparisonKeysOf (opts : DiffOptions) (prodCsv devCsv : ParsedCSV) : List String :=
  (commonKeysOf prodCsv devCsv).filter fun k => !(isExcludedColumn k opts.excludedPatterns)

/-- The production index of a `computeDiff` invocation. -/
def prodIndexOf (opts : DiffOptions) (prodCsv devCsv : ParsedCSV) : List (String × IndexEntry) :=
  buildIndex opts (commonKeysOf prodCsv devCsv) (comparisonKeysOf opts prodCsv devCsv) prodCsv.rows

/-- The development index of a `computeDiff` invocation. -/
def devIndexOf (opts : DiffOptions) (prodCsv devCsv : ParsedCSV) : List (String × IndexEntry) :=
  buildIndex opts (commonKeysOf prodCsv devCsv) (comparisonKeysOf opts prodCsv devCsv) devCsv.rows

/-- The primary key columns absent from a file's headers
(`this.primaryKeys.filter(k => !headers.has(k))`). -/
def missingFrom (primaryKeys : List String) (csv : ParsedCSV) : List String :=
  primaryKeys.filter fun k => !(decide (k ∈ csv.headers))

/-- The successful result record of `computeDiff`. -/
def diffBody (opts : DiffOptions) (prodCsv devCsv : ParsedCSV) : DiffResult :=
  let commonKeys := commonKeysOf prodCsv devCsv
  let prodIdx := prodIndexOf opts prodCsv devCsv
  let devIdx := devIndexOf opts prodCsv devCsv
  let changed := allChangedKeys prodIdx devIdx
  { rows_added := (addedKeyList opts prodIdx devCsv.rows).length
    rows_removed := (removedKeys devIdx prodIdx).length
    rows_updated := (meaningfulKeys prodIdx devIdx).length
    rows_updated_excluded_only := (excludedOnlyKeys prodIdx devIdx).length
    detailed_key_update_counts :=
      detailedChanges opts commonKeys changed
        (neededRows opts commonKeys changed prodCsv.rows)
        (neededRows opts commonKeys changed devCsv.rows)
    common_keys := sortStrings commonKeys
    prod_only_keys := sortStrings (prodOnlyKeysOf prodCsv devCsv)
    dev_only_keys := sortStrings (devOnlyKeysOf prodCsv devCsv)
    prod_row_count := prodCsv.rowCount
    dev_row_count := devCsv.rowCount }

/-- `EfficientDiffer.computeDiff`: validate the primary key columns against
each file's headers (production first), then run the three-phase diff. -/
def computeDiff (opts : DiffOptions) (prodCsv devCsv : ParsedCSV) :
    Except DiffError DiffResult :=
  let missingProd := missingFrom opts.primaryKeys prodCsv
  if missingProd.isEmpty then
    let missingDev := missingFrom opts.primaryKeys devCsv
    if missingDev.isEmpty then
      Except.ok (diffBody opts prodCsv devCsv)
    else
      Except.error ⟨DatasetSide.development, missingDev, sortStrings (dedupFirst devCsv.headers)⟩
  else
    Except.error ⟨DatasetSide.production, missingProd, sortStrings (dedupFirst prodCsv.headers)⟩

/-! ## Primary key auto-detection (`detectPrimaryKey`) -/

/-- The uniqueness test of auto-detection for one column: the proportion of
distinct non-empty values among non-empty values strictly exceeds
`PRIMARY_KEY_UNIQUENESS_THRESHOLD = 0.95` (columns with no non-empty values
are skipped).  The source compares IEEE doubles; the exact rational
comparison used here agrees with it for every dataset whose row count is
below ~10^14, far beyond the domain of the tool. -/
def uniquenessOk (csv : ParsedCSV) (header : String) : Bool :=
  let nonEmpty := (csv.rows.map fun r => cellD r header).filter fun v => v != ""
  if nonEmpty.length == 0 then false
  else decide ((19 : ℚ) / 20 < ((dedupFirst nonEmpty).length : ℚ) / (nonEmpty.length : ℚ))

/-- `detectPrimaryKey`: common id-like names first, then the first
sufficiently unique column, then the first column; `none` models the thrown
"Cannot detect primary key" error. -/
def detectPrimaryKey (csv : ParsedCSV) : Option (List String) :=
  match COMMON_PRIMARY_KEY_NAMES.find? (fun name => decide (name ∈ csv.headers)) with
  | some name => some [name]
  | none =>
    match csv.headers.find? (uniquenessOk csv) with
    | some header => some [header]
    | none =>
      match csv.headers with
      | h :: _ => some [h]
      | [] => none

/-- The auto-detection procedure as the specification words it: the first
fixed common id-like name exactly present in the headers; otherwise the
first header column whose ratio of distinct non-empty values to non-empty
values strictly exceeds 0.95 (stated exactly over the integers); otherwise
the first header column; failing exactly when there are no columns. -/
def detectPrimaryKeySpec (csv : ParsedCSV) : Option (List String) :=
  (((COMMON_PRIMARY_KEY_NAMES.find? fun name => decide (name ∈ csv.headers)).or
    (csv.headers.find? fun h =>
      let nonEmpty := (csv.rows.map fun r => cellD r h).filter fun v => decide (v ≠ "")
      decide (19 * nonEmpty.length < 20 * (dedupFirst nonEmpty).length))).or
    csv.headers.head?).map fun c => [c]

/-! ## Association-list map lemmas -/

/-- The key list of a map model. -/
def mapKeys {β : Type} (m : List (String × β)) : List String :=
  m.map Prod.fst

theorem mapGet_cons_of_ne {β : Type} (p : String × β) (rest : List (String × β)) (k : String)
    (h : p.1 ≠ k) : mapGet (p :: rest) k = mapGet rest k := by
  have hb : (p.1 == k) = false := by simpa using h
  simp [mapGet, List.find?_cons_of_neg, hb]

theorem mapGet_cons_of_eq {β : Type} (p : String × β) (rest : List (String × β)) (k : String)
    (h : p.1 = k) : mapGet (p :: rest) k = some p.2 := by
  have hb : (p.1 == k) = true := by simpa using h
  simp [mapGet, List.find?_cons_of_pos, hb]

theorem mapGet_eq_none_iff {β : Type} (m : List (String × β)) (k : String) :
    mapGet m k = none ↔ k ∉ mapKeys m := by
  induction m with
  | nil => simp [mapGet, mapKeys]
  | cons p rest ih =>
    by_cases hk : p.1 = k
    · simp [mapGet_cons_of_eq p rest k hk, mapKeys, hk]
    · rw [mapGet_cons_of_ne p rest k hk]
      simp only [mapKeys, List.map_cons, List.mem_cons]
      rw [ih]
      simp only [mapKeys]
      constructor
      · intro h hc
        rcases hc with hc | hc
        · exact hk hc.symm
        · exact h hc
      · intro h hc
        exact h (Or.inr hc)

theorem mapGet_isSome_iff {β : Type} (m : List (String × β)) (k : String) :
    (mapGet m k).isSome = true ↔ k ∈ mapKeys m := by
  rw [Option.isSome_iff_ne_none]
  constructor
  · intro h
    by_contra hc
    exact h ((mapGet_eq_none_iff m k).mpr hc)
  · intro h hc
    exact ((mapGet_eq_none_iff m k).mp hc) h

theorem mapGet_mem {β : Type} (m : List (String × β)) (k : String) (v : β)
    (h : mapGet m k = some v) : (k, v) ∈ m := by
  simp only [mapGet, Option.map_eq_some'] at h
  obtain ⟨p, hp, hv⟩ := h
  have hmem := List.mem_of_find?_eq_some hp
  have hkey : p.1 = k := by simpa using List.find?_some hp
  obtain ⟨a, b⟩ := p
  simp only at hkey hv
  subst hkey
  subst hv
  exact hmem

theorem mapGet_of_mem_nodup {β : Type} (m : List (String × β)) (k : String) (v : β)
    (hnd : (mapKeys m).Nodup) (h : (k, v) ∈ m) : mapGet m k = some v := by
  induction m with
  | nil => simp at h
  | cons p rest ih =>
    simp only [mapKeys, List.map_cons, List.nodup_cons] at hnd
    rcases List.mem_cons.mp h with h1 | h2
    · subst h1
      exact mapGet_cons_of_eq _ _ _ rfl
    · have hk : p.1 ≠ k := by
        intro he
        apply hnd.1
        rw [he]
        exact List.mem_map.mpr ⟨(k, v), h2, rfl⟩
      rw [mapGet_cons_of_ne p rest k hk]
      exact ih hnd.2 h2

theorem mapKeys_upsert {β : Type} (m : List (String × β)) (k : String) (v : β) :
    mapKeys (mapUpsert m k v) =
      if k ∈ mapKeys m then mapKeys m else mapKeys m ++ [k] := by
  by_cases hmem : k ∈ mapKeys m
  · have hany : (m.any fun p => p.1 == k) = true := by
      simp only [List.any_eq_true]
      obtain ⟨p, hp, hk⟩ := List.mem_map.mp hmem
      exact ⟨p, hp, by simp [hk]⟩
    simp only [mapKeys] at hmem
    simp only [mapUpsert, hany, if_true, mapKeys, List.map_map]
    rw [if_pos hmem]
    apply List.map_congr_left
    intro p hp
    by_cases hk : p.1 = k
    · simp [Function.comp, hk]
    · have hb : (p.1 == k) = false := by simpa using hk
      simp [Function.comp, hb]
  · have hany : (m.any fun p => p.1 == k) = false := by
      simp only [List.any_eq_false]
      intro p hp
      simp only [beq_iff_eq]
      intro hk
      exact hmem (List.mem_map.mpr ⟨p, hp, hk⟩)
    rw [if_neg hmem]
    simp [mapUpsert, hany, mapKeys]

theorem mapKeys_upsert_nodup {β : Type} (m : List (String × β)) (k : String) (v : β)
    (hnd : (mapKeys m).Nodup) : (mapKeys (mapUpsert m k v)).Nodup := by
  rw [mapKeys_upsert]
  by_cases hmem : k ∈ mapKeys m
  · simpa [hmem]
  · simp [hmem, List.nodup_append, hnd]

theorem mapUpsert_forall_values {β : Type} (m : List (String × β)) (k : String) (v : β)
    (P : β → Prop) (hm : ∀ p ∈ m, P p.2) (hv : P v) :
    ∀ p ∈ mapUpsert m k v, P p.2 := by
  intro p hp
  by_cases hany : (m.any fun q => q.1 == k) = true
  · simp only [mapUpsert, hany, if_true, List.mem_map] at hp
    obtain ⟨q, hq, he⟩ := hp
    by_cases hk : q.1 = k
    · have hb : (q.1 == k) = true := by simpa using hk
      rw [hb] at he
      simp only [if_true] at he
      rw [← he]
      exact hv
    · have hb : (q.1 == k) = false := by simpa using hk
      rw [hb] at he
      simp only [Bool.false_eq_true, if_false] at he
      rw [← he]
      exact hm q hq
  · rw [Bool.not_eq_true] at hany
    simp only [mapUpsert, hany, Bool.false_eq_true, if_false, List.mem_append,
      List.mem_singleton] at hp
    rcases hp with hp | hp
    · exact hm p hp
    · rw [hp]
      exact hv

/-! ## Deduplication lemmas -/

theorem dedupFirstFrom_cons_mem (acc ys : List String) (y : String) (h : y ∈ acc) :
    dedupFirstFrom acc (y :: ys) = dedupFirstFrom acc ys := by
  simp [dedupFirstFrom, h]

theorem dedupFirstFrom_cons_not_mem (acc ys : List String) (y : String) (h : y ∉ acc) :
    dedupFirstFrom acc (y :: ys) = dedupFirstFrom (acc ++ [y]) ys := by
  simp [dedupFirstFrom, h]

theorem mem_dedupFirstFrom (acc l : List String) (x : String) :
    x ∈ dedupFirstFrom acc l ↔ x ∈ acc ∨ x ∈ l := by
  induction l generalizing acc with
  | nil => simp [dedupFirstFrom]
  | cons y ys ih =>
    by_cases hy : y ∈ acc
    · rw [dedupFirstFrom_cons_mem acc ys y hy, ih]
      simp only [List.mem_cons]
      constructor
      · tauto
      · rintro (h | rfl | h) <;> tauto
    · rw [dedupFirstFrom_cons_not_mem acc ys y hy, ih]
      simp only [List.mem_append, List.mem_singleton, List.mem_cons]
      tauto

theorem mem_dedupFirst (l : List String) (x : String) :
    x ∈ dedupFirst l ↔ x ∈ l := by
  simp [dedupFirst, mem_dedupFirstFrom]

theorem nodup_dedupFirstFrom (acc l : List String) (h : acc.Nodup) :
    (dedupFirstFrom acc l).Nodup := by
  induction l generalizing acc with
  | nil => simpa [dedupFirstFrom]
  | cons y ys ih =>
    by_cases hy : y ∈ acc
    · rw [dedupFirstFrom_cons_mem acc ys y hy]
      exact ih acc h
    · rw [dedupFirstFrom_cons_not_mem acc ys y hy]
      exact ih (acc ++ [y]) (by simp [List.nodup_append, h, hy])

theorem nodup_dedupFirst (l : List String) : (dedupFirst l).Nodup :=
  nodup_dedupFirstFrom [] l List.nodup_nil

theorem filter_dedupFirstFrom (p : String → Bool) (acc l : List String) :
    (dedupFirstFrom acc l).filter p = dedupFirstFrom (acc.filter p) (l.filter p) := by
  induction l generalizing acc with
  | nil => simp [dedupFirstFrom]
  | cons y ys ih =>
    by_cases hy : y ∈ acc
    · rw [dedupFirstFrom_cons_mem acc ys y hy]
      by_cases hp : p y = true
      · have hyf : y ∈ acc.filter p := List.mem_filter.mpr ⟨hy, hp⟩
        rw [List.filter_cons, if_pos hp, dedupFirstFrom_cons_mem _ _ _ hyf, ih]
      · rw [List.filter_cons, if_neg (by simpa using hp), ih]
    · rw [dedupFirstFrom_cons_not_mem acc ys y hy]
      by_cases hp : p y = true
      · have hyf : y ∉ acc.filter p := fun hc => hy (List.mem_filter.mp hc).1
        rw [List.filter_cons, if_pos hp, dedupFirstFrom_cons_not_mem _ _ _ hyf, ih,
          List.filter_append]
        simp [List.filter_cons, hp]
      · rw [List.filter_cons, if_neg (by simpa using hp), ih, List.filter_append]
        simp [List.filter_cons, hp]

theorem filter_dedupFirst (p : String → Bool) (l : List String) :
    (dedupFirst l).filter p = dedupFirst (l.filter p) := by
  simp [dedupFirst, filter_dedupFirstFrom]

theorem toFinset_dedupFirst (l : List String) :
    (dedupFirst l).toFinset = l.toFinset := by
  ext x
  simp [mem_dedupFirst]

theorem length_dedupFirst (l : List String) :
    (dedupFirst l).length = l.toFinset.card := by
  rw [← toFinset_dedupFirst, List.toFinset_card_of_nodup (nodup_dedupFirst l)]

/-! ## Index-construction lemmas -/

theorem keys_buildIndexFrom (opts : DiffOptions) (ck cpk : List String)
    (rows : List Row) (n : Nat) (m : List (String × IndexEntry)) :
    mapKeys (buildIndexFrom opts ck cpk n m rows) =
      dedupFirstFrom (mapKeys m) (rows.map fun r => makeCompositeKey r opts.primaryKeys) := by
  induction rows generalizing n m with
  | nil => simp [buildIndexFrom, dedupFirstFrom]
  | cons row rest ih =>
    simp only [buildIndexFrom, List.map_cons]
    rw [ih]
    by_cases hmem : makeCompositeKey row opts.primaryKeys ∈ mapKeys m
    · rw [mapKeys_upsert, if_pos hmem, dedupFirstFrom_cons_mem _ _ _ hmem]
    · rw [mapKeys_upsert, if_neg hmem, dedupFirstFrom_cons_not_mem _ _ _ hmem]

theorem keys_buildIndex (opts : DiffOptions) (ck cpk : List String) (rows : List Row) :
    mapKeys (buildIndex opts ck cpk rows) =
      dedupFirst (rows.map fun r => makeCompositeKey r opts.primaryKeys) := by
  rw [buildIndex, keys_buildIndexFrom]
  simp [dedupFirst, mapKeys]

theorem nodupKeys_buildIndex (opts : DiffOptions) (ck cpk : List String) (rows : List Row) :
    (mapKeys (buildIndex opts ck cpk rows)).Nodup := by
  rw [keys_buildIndex]
  exact nodup_dedupFirst _

theorem buildIndexFrom_forall_values (opts : DiffOptions) (ck cpk : List String)
    (P : IndexEntry → Prop) (hP : ∀ n row, P (indexEntry opts ck cpk n row)) :
    ∀ (rows : List Row) (n : Nat) (m : List (String × IndexEntry)),
      (∀ p ∈ m, P p.2) → ∀ p ∈ buildIndexFrom opts ck cpk n m rows, P p.2 := by
  intro rows
  induction rows with
  | nil =>
    intro n m hm p hp
    exact hm p hp
  | cons row rest ih =>
    intro n m hm p hp
    exact ih (n + 1) _ (mapUpsert_forall_values m _ _ P hm (hP n row)) p hp

theorem buildIndex_forall_values (opts : DiffOptions) (ck cpk : List String)
    (P : IndexEntry → Prop) (hP : ∀ n row, P (indexEntry opts ck cpk n row))
    (rows : List Row) : ∀ p ∈ buildIndex opts ck cpk rows, P p.2 :=
  buildIndexFrom_forall_values opts ck cpk P hP rows 1 [] (by simp)

/-! ## Added-key lemmas -/

theorem addedKeysFrom_eq (opts : DiffOptions) (idx : List (String × IndexEntry))
    (rows : List Row) (acc : List String) :
    addedKeysFrom opts idx acc rows =
      dedupFirstFrom acc
        ((rows.map fun r => makeCompositeKey r opts.primaryKeys).filter
          fun k => (mapGet idx k).isNone) := by
  induction rows generalizing acc with
  | nil => simp [addedKeysFrom, dedupFirstFrom]
  | cons row rest ih =>
    simp only [addedKeysFrom, List.map_cons, List.filter_cons]
    by_cases hnone : (mapGet idx (makeCompositeKey row opts.primaryKeys)).isNone = true
    · by_cases hacc : makeCompositeKey row opts.primaryKeys ∈ acc
      · rw [if_pos hnone, dedupFirstFrom_cons_mem _ _ _ hacc]
        simp only [hnone, hacc, decide_True, Bool.not_true, Bool.and_false]
        simp [ih, hacc]
      · rw [if_pos hnone, dedupFirstFrom_cons_not_mem _ _ _ hacc]
        simp only [hnone, hacc]
        simp [ih, hacc]
    · rw [Bool.not_eq_true] at hnone
      rw [if_neg (by simp [hnone])]
      simp [hnone, ih]

theorem addedKeyList_eq (opts : DiffOptions) (idx : List (String × IndexEntry))
    (rows : List Row) :
    addedKeyList opts idx rows =
      (dedupFirst (rows.map fun r => makeCompositeKey r opts.primaryKeys)).filter
        fun k => (mapGet idx k).isNone := by
  rw [addedKeyList, addedKeysFrom_eq, filter_dedupFirst]
  simp [dedupFirst]

/-! ## Filter counting helpers -/

theorem map_fst_filter {β : Type} (m : List (String × β)) (q : String → Bool) :
    ((m.filter fun p => q p.1).map Prod.fst) = (m.map Prod.fst).filter q := by
  induction m with
  | nil => simp
  | cons p rest ih =>
    by_cases hq : q p.1 = true
    · simp [List.filter_cons, hq, ih]
    · simp [List.filter_cons, hq, ih]

theorem length_filter_partition {α : Type} (l : List α) (f g h : α → Bool)
    (hfg : ∀ a, ¬(f a = true ∧ g a = true)) (hh : ∀ a, h a = (f a || g a)) :
    (l.filter f).length + (l.filter g).length = (l.filter h).length := by
  induction l with
  | nil => simp
  | cons a rest ih =>
    rcases hf : f a with hfv | hfv
    · rcases hg : g a with hgv | hgv
      · simp [List.filter_cons, hf, hg, hh a, ih]
      · simp only [List.filter_cons, hf, hg, hh a, Bool.false_or, Bool.false_eq_true,
          if_false, if_true, List.length_cons]
        omega
    · have hg : g a = false := by
        rcases hgv : g a with h1 | h1
        · rfl
        · exact absurd ⟨hf, hgv⟩ (hfg a)
      simp only [List.filter_cons, hf, hg, hh a, Bool.true_or, if_true, Bool.false_eq_true,
        if_false, List.length_cons]
      omega

theorem length_filter_mono {α : Type} (l : List α) (f g : α → Bool)
    (h : ∀ a ∈ l, f a = true → g a = true) :
    (l.filter f).length ≤ (l.filter g).length := by
  induction l with
  | nil => simp
  | cons a rest ih =>
    have ih' := ih fun b hb => h b (List.mem_cons_of_mem a hb)
    by_cases hf : f a = true
    · have hg := h a (List.mem_cons_self a rest) hf
      simp only [List.filter_cons, hf, hg, if_true, List.length_cons]
      omega
    · by_cases hg : g a = true
      · simp only [List.filter_cons, hf, hg, Bool.false_eq_true, if_false, if_true,
          List.length_cons]
        omega
      · simp only [List.filter_cons, hf, hg, Bool.false_eq_true, if_false]
        exact ih'

theorem length_filter_eq_card (l : List String) (hl : l.Nodup) (p : String → Bool) :
    (l.filter p).length = (l.toFinset.filter fun x => p x = true).card := by
  rw [← List.toFinset_filter]
  exact (List.toFinset_card_of_nodup (hl.filter p)).symm

/-! ## Key-set counting -/

/-- The set of distinct composite keys of a dataset under a primary key
specification. -/
def keySetOf (opts : DiffOptions) (csv : ParsedCSV) : Finset String :=
  (csv.rows.map fun r => makeCompositeKey r opts.primaryKeys).toFinset

theorem mem_mapKeys_prodIndex_iff (opts : DiffOptions) (prodCsv devCsv : ParsedCSV)
    (k : String) :
    k ∈ mapKeys (prodIndexOf opts prodCsv devCsv) ↔ k ∈ keySetOf opts prodCsv := by
  rw [prodIndexOf, keys_buildIndex, mem_dedupFirst, keySetOf, List.mem_toFinset]

theorem mem_mapKeys_devIndex_iff (opts : DiffOptions) (prodCsv devCsv : ParsedCSV)
    (k : String) :
    k ∈ mapKeys (devIndexOf opts prodCsv devCsv) ↔ k ∈ keySetOf opts devCsv := by
  rw [devIndexOf, keys_buildIndex, mem_dedupFirst, keySetOf, List.mem_toFinset]

theorem rows_added_eq_card (opts : DiffOptions) (prodCsv devCsv : ParsedCSV) :
    (addedKeyList opts (prodIndexOf opts prodCsv devCsv) devCsv.rows).length =
      (keySetOf opts devCsv \ keySetOf opts prodCsv).card := by
  rw [addedKeyList_eq,
    length_filter_eq_card _ (nodup_dedupFirst _)]
  congr 1
  ext x
  simp only [Finset.mem_filter, toFinset_dedupFirst, Finset.mem_sdiff, List.mem_toFinset,
    Option.isNone_iff_eq_none, mapGet_eq_none_iff, mem_mapKeys_prodIndex_iff, keySetOf,
    List.mem_toFinset]

theorem rows_removed_eq_card (opts : DiffOptions) (prodCsv devCsv : ParsedCSV) :
    (removedKeys (devIndexOf opts prodCsv devCsv) (prodIndexOf opts prodCsv devCsv)).length =
      (keySetOf opts prodCsv \ keySetOf opts devCsv).card := by
  rw [removedKeys, map_fst_filter (prodIndexOf opts prodCsv devCsv)
    (fun k => (mapGet (devIndexOf opts prodCsv devCsv) k).isNone)]
  rw [show (prodIndexOf opts prodCsv devCsv).map Prod.fst =
    mapKeys (prodIndexOf opts prodCsv devCsv) from rfl]
  rw [prodIndexOf, keys_buildIndex, length_filter_eq_card _ (nodup_dedupFirst _)]
  congr 1
  ext x
  simp only [Finset.mem_filter, toFinset_dedupFirst, Finset.mem_sdiff, List.mem_toFinset,
    Option.isNone_iff_eq_none, mapGet_eq_none_iff, mem_mapKeys_devIndex_iff, keySetOf,
    List.mem_toFinset]

theorem matched_eq_card (opts : DiffOptions) (prodCsv devCsv : ParsedCSV) :
    ((devIndexOf opts prodCsv devCsv).filter
      (fun kd => (mapGet (prodIndexOf opts prodCsv devCsv) kd.1).isSome)).length =
      (keySetOf opts prodCsv ∩ keySetOf opts devCsv).card := by
  rw [← List.length_map (((devIndexOf opts prodCsv devCsv).filter
      (fun kd => (mapGet (prodIndexOf opts prodCsv devCsv) kd.1).isSome))) Prod.fst]
  rw [map_fst_filter (devIndexOf opts prodCsv devCsv)
    (fun k => (mapGet (prodIndexOf opts prodCsv devCsv) k).isSome)]
  rw [show (devIndexOf opts prodCsv devCsv).map Prod.fst =
    mapKeys (devIndexOf opts prodCsv devCsv) from rfl]
  rw [devIndexOf, keys_buildIndex, length_filter_eq_card _ (nodup_dedupFirst _)]
  congr 1
  ext x
  simp only [Finset.mem_filter, toFinset_dedupFirst, Finset.mem_inter, List.mem_toFinset,
    mapGet_isSome_iff, mem_mapKeys_prodIndex_iff, keySetOf, List.mem_toFinset]
  tauto

/-! ## `computeDiff` inversion -/

theorem missingFrom_eq_nil_iff (primaryKeys : List String) (csv : ParsedCSV) :
    missingFrom primaryKeys csv = [] ↔ ∀ k ∈ primaryKeys, k ∈ csv.headers := by
  simp [missingFrom, List.filter_eq_nil_iff]

theorem computeDiff_ok_iff (opts : DiffOptions) (prodCsv devCsv : ParsedCSV) (r : DiffResult) :
    computeDiff opts prodCsv devCsv = Except.ok r ↔
      missingFrom opts.primaryKeys prodCsv = [] ∧ missingFrom opts.primaryKeys devCsv = [] ∧
        r = diffBody opts prodCsv devCsv := by
  by_cases hp : missingFrom opts.primaryKeys prodCsv = []
  · have hpe : (missingFrom opts.primaryKeys prodCsv).isEmpty = true := by simp [hp]
    by_cases hd : missingFrom opts.primaryKeys devCsv = []
    · have hde : (missingFrom opts.primaryKeys devCsv).isEmpty = true := by simp [hd]
      simp only [computeDiff, hpe, hde, if_true, hp, hd, true_and]
      constructor
      · intro h
        exact (Except.ok.injEq _ _).mp h |>.symm
      · intro h
        rw [h]
        simp
    · have hde : (missingFrom opts.primaryKeys devCsv).isEmpty = false := by
        simpa [List.isEmpty_iff] using hd
      simp [computeDiff, hpe, hde, hd]
  · have hpe : (missingFrom opts.primaryKeys prodCsv).isEmpty = false := by
      simpa [List.isEmpty_iff] using hp
    simp [computeDiff, hpe, hp]

theorem computeDiff_error_iff (opts : DiffOptions) (prodCsv devCsv : ParsedCSV)
    (e : DiffError) :
    computeDiff opts prodCsv devCsv = Except.error e ↔
      (missingFrom opts.primaryKeys prodCsv ≠ [] ∧
        e = ⟨DatasetSide.production, missingFrom opts.primaryKeys prodCsv,
          sortStrings (dedupFirst prodCsv.headers)⟩) ∨
      (missingFrom opts.primaryKeys prodCsv = [] ∧
        missingFrom opts.primaryKeys devCsv ≠ [] ∧
        e = ⟨DatasetSide.development, missingFrom opts.primaryKeys devCsv,
          sortStrings (dedupFirst devCsv.headers)⟩) := by
  by_cases hp : missingFrom opts.primaryKeys prodCsv = []
  · have hpe : (missingFrom opts.primaryKeys prodCsv).isEmpty = true := by simp [hp]
    by_cases hd : missingFrom opts.primaryKeys devCsv = []
    · have hde : (missingFrom opts.primaryKeys devCsv).isEmpty = true := by simp [hd]
      simp [computeDiff, hpe, hde, hp, hd]
    · have hde : (missingFrom opts.primaryKeys devCsv).isEmpty = false := by
        simpa [List.isEmpty_iff] using hd
      simp only [computeDiff, hpe, hde, if_true, Bool.false_eq_true, if_false]
      constructor
      · intro h
        exact Or.inr ⟨hp, hd, ((Except.error.injEq _ _).mp h).symm⟩
      · rintro (⟨hcon, -⟩ | ⟨-, -, he⟩)
        · exact absurd hp hcon
        · rw [he]
  · have hpe : (missingFrom opts.primaryKeys prodCsv).isEmpty = false := by
      simpa [List.isEmpty_iff] using hp
    simp only [computeDiff, hpe, Bool.false_eq_true, if_false]
    constructor
    · intro h
      exact Or.inl ⟨hp, ((Except.error.injEq _ _).mp h).symm⟩
    · rintro (⟨-, he⟩ | ⟨hcon, -, -⟩)
      · rw [he]
      · exact absurd hcon hp

theorem pk_mem_common (opts : DiffOptions) (prodCsv devCsv : ParsedCSV)
    (hp : missingFrom opts.primaryKeys prodCsv = [])
    (hd : missingFrom opts.primaryKeys devCsv = []) :
    ∀ k ∈ opts.primaryKeys, k ∈ commonKeysOf prodCsv devCsv := by
  intro k hk
  have h1 := (missingFrom_eq_nil_iff _ _).mp hp k hk
  have h2 := (missingFrom_eq_nil_iff _ _).mp hd k hk
  rw [commonKeysOf]
  exact List.mem_filter.mpr ⟨(mem_dedupFirst _ _).mpr h1, by simpa using h2⟩

theorem comparisonKeys_subset (opts : DiffOptions) (prodCsv devCsv : ParsedCSV) :
    ∀ k ∈ comparisonKeysOf opts prodCsv devCsv, k ∈ commonKeysOf prodCsv devCsv := by
  intro k hk
  exact (List.mem_filter.mp hk).1

/-! ## Diagonal lemmas: equal indexes yield zero change counts -/

theorem meaningfulKeys_self_nil (idx : List (String × IndexEntry))
    (hnd : (mapKeys idx).Nodup) : meaningfulKeys idx idx = [] := by
  rw [meaningfulKeys, List.filter_eq_nil_iff.mpr, List.map_nil]
  intro kd hkd
  have : mapGet idx kd.1 = some kd.2 := by
    apply mapGet_of_mem_nodup idx kd.1 kd.2 hnd
    cases kd
    exact hkd
  simp [meaningfulPred, this]

theorem excludedOnlyKeys_self_nil (idx : List (String × IndexEntry))
    (hnd : (mapKeys idx).Nodup) : excludedOnlyKeys idx idx = [] := by
  rw [excludedOnlyKeys, List.filter_eq_nil_iff.mpr, List.map_nil]
  intro kd hkd
  have : mapGet idx kd.1 = some kd.2 := by
    apply mapGet_of_mem_nodup idx kd.1 kd.2 hnd
    cases kd
    exact hkd
  simp [excludedOnlyPred, this]

theorem removedKeys_self_nil (idx : List (String × IndexEntry)) :
    removedKeys idx idx = [] := by
  rw [removedKeys, List.filter_eq_nil_iff.mpr, List.map_nil]
  intro kd hkd
  have hk : kd.1 ∈ mapKeys idx := List.mem_map.mpr ⟨kd, hkd, rfl⟩
  have hs := (mapGet_isSome_iff idx kd.1).mpr hk
  simp only [Option.isNone_iff_eq_none]
  exact Option.isSome_iff_ne_none.mp hs

theorem addedKeyList_nil_of_present (opts : DiffOptions)
    (idx : List (String × IndexEntry)) (rows : List Row)
    (h : ∀ row ∈ rows, (mapGet idx (makeCompositeKey row opts.primaryKeys)).isSome = true) :
    addedKeyList opts idx rows = [] := by
  rw [addedKeyList_eq]
  apply List.filter_eq_nil_iff.mpr
  intro k hk
  obtain ⟨row, hrow, hkr⟩ := List.mem_map.mp ((mem_dedupFirst _ _).mp hk)
  rw [← hkr]
  simp only [Option.isNone_iff_eq_none]
  exact Option.isSome_iff_ne_none.mp (h row hrow)

/-! ## Congruence machinery -/

theorem mem_insertSorted (x y : String) (l : List String) :
    y ∈ insertSorted x l ↔ y = x ∨ y ∈ l := by
  induction l with
  | nil => simp [insertSorted]
  | cons z zs ih =>
    by_cases hlt : strLt x z = true
    · simp [insertSorted, hlt]
    · simp only [insertSorted, hlt, Bool.false_eq_true, if_false, List.mem_cons, ih]
      tauto

theorem mem_sortStrings (l : List String) (x : String) :
    x ∈ sortStrings l ↔ x ∈ l := by
  induction l with
  | nil => simp [sortStrings]
  | cons y ys ih =>
    simp only [sortStrings, List.foldr_cons]
    rw [show List.foldr insertSorted [] ys = sortStrings ys from rfl]
    rw [mem_insertSorted]
    simp [ih]

theorem hashRow_congr (r₁ r₂ : Row) (keys : List String) (cs ts : Bool)
    (h : ∀ k ∈ keys, normalizeValue (cellD r₁ k) cs ts = normalizeValue (cellD r₂ k) cs ts) :
    hashRow r₁ keys cs ts = hashRow r₂ keys cs ts := by
  unfold hashRow
  congr 2
  apply List.map_congr_left
  intro k hk
  exact h k ((mem_sortStrings keys k).mp hk)

theorem hashRow_congr_cellD (r₁ r₂ : Row) (keys : List String) (cs ts : Bool)
    (h : ∀ k ∈ keys, cellD r₁ k = cellD r₂ k) :
    hashRow r₁ keys cs ts = hashRow r₂ keys cs ts :=
  hashRow_congr r₁ r₂ keys cs ts fun k hk => by rw [h k hk]

theorem makeCompositeKey_congr (r₁ r₂ : Row) (pks : List String)
    (h : ∀ k ∈ pks, cellD r₁ k = cellD r₂ k) :
    makeCompositeKey r₁ pks = makeCompositeKey r₂ pks := by
  unfold makeCompositeKey
  congr 1
  exact List.map_congr_left h

theorem indexEntry_congr (opts : DiffOptions) (common cpk : List String) (n : Nat)
    (r₁ r₂ : Row)
    (hf : hashRow r₁ common opts.caseSensitive opts.trimWhitespace =
      hashRow r₂ common opts.caseSensitive opts.trimWhitespace)
    (hc : hashRow r₁ cpk opts.caseSensitive opts.trimWhitespace =
      hashRow r₂ cpk opts.caseSensitive opts.trimWhitespace) :
    indexEntry opts common cpk n r₁ = indexEntry opts common cpk n r₂ := by
  unfold indexEntry
  by_cases h : 0 < cpk.length
  · simp [h, hf, hc]
  · simp [h, hf]

theorem buildIndexFrom_congr (opts : DiffOptions) (common cpk : List String)
    (rows₁ rows₂ : List Row)
    (hrel : List.Forall₂
      (fun a b => makeCompositeKey a opts.primaryKeys = makeCompositeKey b opts.primaryKeys ∧
        ∀ n, indexEntry opts common cpk n a = indexEntry opts common cpk n b)
      rows₁ rows₂) :
    ∀ (n : Nat) (m : List (String × IndexEntry)),
      buildIndexFrom opts common cpk n m rows₁ = buildIndexFrom opts common cpk n m rows₂ := by
  induction hrel with
  | nil => intro n m; rfl
  | cons hab hrest ih =>
    intro n m
    simp only [buildIndexFrom, hab.1, hab.2 n]
    exact ih (n + 1) _

theorem forall₂_map_eq {α β : Type} (r : α → α → Prop) (l₁ l₂ : List α)
    (h : List.Forall₂ r l₁ l₂) (f g : α → β) (hf : ∀ a b, r a b → f a = g b) :
    l₁.map f = l₂.map g := by
  induction h with
  | nil => rfl
  | cons hab hrest ih => simp [hf _ _ hab, ih]

theorem neededRowsFrom_congr (opts : DiffOptions) (common : List String) (changed : List String)
    (rows₁ rows₂ : List Row)
    (hrel : List.Forall₂
      (fun a b => makeCompositeKey a opts.primaryKeys = makeCompositeKey b opts.primaryKeys ∧
        filteredRow common a = filteredRow common b) rows₁ rows₂) :
    ∀ m : List (String × Row),
      neededRowsFrom opts common changed m rows₁ = neededRowsFrom opts common changed m rows₂ := by
  induction hrel with
  | nil => intro m; rfl
  | cons hab hrest ih =>
    intro m
    simp only [neededRowsFrom, hab.1, hab.2]
    split
    · exact ih _
    · exact ih _

theorem filteredRow_congr (common : List String) (a b : Row)
    (h : ∀ k ∈ common, cellD a k = cellD b k) :
    filteredRow common a = filteredRow common b := by
  unfold filteredRow
  apply List.map_congr_left
  intro k hk
  rw [h k hk]

/-! ## `diffBody` field projections -/

theorem diffBody_rows_added (opts : DiffOptions) (p d : ParsedCSV) :
    (diffBody opts p d).rows_added =
      (addedKeyList opts (prodIndexOf opts p d) d.rows).length := rfl

theorem diffBody_rows_removed (opts : DiffOptions) (p d : ParsedCSV) :
    (diffBody opts p d).rows_removed =
      (removedKeys (devIndexOf opts p d) (prodIndexOf opts p d)).length := rfl

theorem diffBody_rows_updated (opts : DiffOptions) (p d : ParsedCSV) :
    (diffBody opts p d).rows_updated =
      (meaningfulKeys (prodIndexOf opts p d) (devIndexOf opts p d)).length := rfl

theorem diffBody_rows_excluded (opts : DiffOptions) (p d : ParsedCSV) :
    (diffBody opts p d).rows_updated_excluded_only =
      (excludedOnlyKeys (prodIndexOf opts p d) (devIndexOf opts p d)).length := rfl

theorem diffBody_detailed (opts : DiffOptions) (p d : ParsedCSV) :
    (diffBody opts p d).detailed_key_update_counts =
      detailedChanges opts (commonKeysOf p d)
        (allChangedKeys (prodIndexOf opts p d) (devIndexOf opts p d))
        (neededRows opts (commonKeysOf p d)
          (allChangedKeys (prodIndexOf opts p d) (devIndexOf opts p d)) p.rows)
        (neededRows opts (commonKeysOf p d)
          (allChangedKeys (prodIndexOf opts p d) (devIndexOf opts p d)) d.rows) := rfl

/-! ## Master congruence: the count fields depend only on common-column data -/

theorem diffBody_counts_congr (opts : DiffOptions) (prod₁ dev₁ prod₂ dev₂ : ParsedCSV)
    (hph : prod₁.headers = prod₂.headers) (hdh : dev₁.headers = dev₂.headers)
    (hpk : ∀ k ∈ opts.primaryKeys, k ∈ commonKeysOf prod₁ dev₁)
    (hpr : List.Forall₂ (fun a b => ∀ k ∈ commonKeysOf prod₁ dev₁, cellD a k = cellD b k)
      prod₁.rows prod₂.rows)
    (hdr : List.Forall₂ (fun a b => ∀ k ∈ commonKeysOf prod₁ dev₁, cellD a k = cellD b k)
      dev₁.rows dev₂.rows) :
    (diffBody opts prod₂ dev₂).rows_added = (diffBody opts prod₁ dev₁).rows_added ∧
    (diffBody opts prod₂ dev₂).rows_removed = (diffBody opts prod₁ dev₁).rows_removed ∧
    (diffBody opts prod₂ dev₂).rows_updated = (diffBody opts prod₁ dev₁).rows_updated ∧
    (diffBody opts prod₂ dev₂).rows_updated_excluded_only =
      (diffBody opts prod₁ dev₁).rows_updated_excluded_only ∧
    (diffBody opts prod₂ dev₂).detailed_key_update_counts =
      (diffBody opts prod₁ dev₁).detailed_key_update_counts := by
  have hcom : commonKeysOf prod₂ dev₂ = commonKeysOf prod₁ dev₁ := by
    simp only [commonKeysOf, ← hph, ← hdh]
  have hcmp : comparisonKeysOf opts prod₂ dev₂ = comparisonKeysOf opts prod₁ dev₁ := by
    simp only [comparisonKeysOf, hcom]
  have hidxP : List.Forall₂
      (fun a b => makeCompositeKey a opts.primaryKeys = makeCompositeKey b opts.primaryKeys ∧
        ∀ n, indexEntry opts (commonKeysOf prod₁ dev₁) (comparisonKeysOf opts prod₁ dev₁) n a =
          indexEntry opts (commonKeysOf prod₁ dev₁) (comparisonKeysOf opts prod₁ dev₁) n b)
      prod₁.rows prod₂.rows := by
    apply hpr.imp
    intro a b h
    refine ⟨makeCompositeKey_congr a b _ fun k hk => h k (hpk k hk), fun n => ?_⟩
    exact indexEntry_congr opts _ _ n a b
      (hashRow_congr_cellD a b _ _ _ h)
      (hashRow_congr_cellD a b _ _ _ fun k hk => h k (comparisonKeys_subset opts prod₁ dev₁ k hk))
  have hidxD : List.Forall₂
      (fun a b => makeCompositeKey a opts.primaryKeys = makeCompositeKey b opts.primaryKeys ∧
        ∀ n, indexEntry opts (commonKeysOf prod₁ dev₁) (comparisonKeysOf opts prod₁ dev₁) n a =
          indexEntry opts (commonKeysOf prod₁ dev₁) (comparisonKeysOf opts prod₁ dev₁) n b)
      dev₁.rows dev₂.rows := by
    apply hdr.imp
    intro a b h
    refine ⟨makeCompositeKey_congr a b _ fun k hk => h k (hpk k hk), fun n => ?_⟩
    exact indexEntry_congr opts _ _ n a b
      (hashRow_congr_cellD a b _ _ _ h)
      (hashRow_congr_cellD a b _ _ _ fun k hk => h k (comparisonKeys_subset opts prod₁ dev₁ k hk))
  have hpidx : prodIndexOf opts prod₂ dev₂ = prodIndexOf opts prod₁ dev₁ := by
    rw [prodIndexOf, prodIndexOf, hcom, hcmp, buildIndex, buildIndex]
    exact (buildIndexFrom_congr opts _ _ prod₁.rows prod₂.rows hidxP 1 []).symm
  have hdidx : devIndexOf opts prod₂ dev₂ = devIndexOf opts prod₁ dev₁ := by
    rw [devIndexOf, devIndexOf, hcom, hcmp, buildIndex, buildIndex]
    exact (buildIndexFrom_congr opts _ _ dev₁.rows dev₂.rows hidxD 1 []).symm
  have hckP : prod₁.rows.map (fun r => makeCompositeKey r opts.primaryKeys) =
      prod₂.rows.map (fun r => makeCompositeKey r opts.primaryKeys) :=
    forall₂_map_eq _ _ _ hidxP _ _ fun a b h => h.1
  have hckD : dev₁.rows.map (fun r => makeCompositeKey r opts.primaryKeys) =
      dev₂.rows.map (fun r => makeCompositeKey r opts.primaryKeys) :=
    forall₂_map_eq _ _ _ hidxD _ _ fun a b h => h.1
  have hneedP : ∀ changed : List String,
      neededRows opts (commonKeysOf prod₁ dev₁) changed prod₂.rows =
        neededRows opts (commonKeysOf prod₁ dev₁) changed prod₁.rows := by
    intro changed
    rw [neededRows, neededRows]
    refine (neededRowsFrom_congr opts _ changed prod₁.rows prod₂.rows ?_ []).symm
    apply hpr.imp
    intro a b h
    exact ⟨makeCompositeKey_congr a b _ fun k hk => h k (hpk k hk),
      filteredRow_congr _ a b h⟩
  have hneedD : ∀ changed : List String,
      neededRows opts (commonKeysOf prod₁ dev₁) changed dev₂.rows =
        neededRows opts (commonKeysOf prod₁ dev₁) changed dev₁.rows := by
    intro changed
    rw [neededRows, neededRows]
    refine (neededRowsFrom_congr opts _ changed dev₁.rows dev₂.rows ?_ []).symm
    apply hdr.imp
    intro a b h
    exact ⟨makeCompositeKey_congr a b _ fun k hk => h k (hpk k hk),
      filteredRow_congr _ a b h⟩
  refine ⟨?_, ?_, ?_, ?_, ?_⟩
  · rw [diffBody_rows_added, diffBody_rows_added, hpidx, addedKeyList_eq, addedKeyList_eq,
      hckD]
  · rw [diffBody_rows_removed, diffBody_rows_removed, hpidx, hdidx]
  · rw [diffBody_rows_updated, diffBody_rows_updated, hpidx, hdidx]
  · rw [diffBody_rows_excluded, diffBody_rows_excluded, hpidx, hdidx]
  · rw [diffBody_detailed, diffBody_detailed, hpidx, hdidx, hcom, hneedP, hneedD]

/-! ## Classification lemmas for matched keys -/

theorem mem_meaningfulKeys_of (prodIdx devIdx : List (String × IndexEntry))
    (k : String) (p d : IndexEntry)
    (hp : mapGet prodIdx k = some p) (hd : mapGet devIdx k = some d)
    (hfull : p.fullHash ≠ d.fullHash) (hcomp : p.compHash ≠ d.compHash) :
    k ∈ meaningfulKeys prodIdx devIdx := by
  rw [meaningfulKeys]
  apply List.mem_map.mpr
  refine ⟨(k, d), List.mem_filter.mpr ⟨mapGet_mem devIdx k d hd, ?_⟩, rfl⟩
  simp only [meaningfulPred, hp, bne_iff_ne, ne_eq, Bool.and_eq_true]
  exact ⟨by simpa using fun h => hfull h.symm, by simpa using fun h => hcomp h.symm⟩

theorem mem_excludedOnlyKeys_of (prodIdx devIdx : List (String × IndexEntry))
    (k : String) (p d : IndexEntry)
    (hp : mapGet prodIdx k = some p) (hd : mapGet devIdx k = some d)
    (hfull : p.fullHash ≠ d.fullHash) (hcomp : p.compHash = d.compHash) :
    k ∈ excludedOnlyKeys prodIdx devIdx := by
  rw [excludedOnlyKeys]
  apply List.mem_map.mpr
  refine ⟨(k, d), List.mem_filter.mpr ⟨mapGet_mem devIdx k d hd, ?_⟩, rfl⟩
  simp only [excludedOnlyPred, hp, bne_iff_ne, ne_eq, Bool.and_eq_true, beq_iff_eq]
  exact ⟨by simpa using fun h => hfull h.symm, hcomp.symm⟩

theorem not_mem_meaningfulKeys_of (prodIdx devIdx : List (String × IndexEntry))
    (hnd : (mapKeys devIdx).Nodup) (k : String) (p d : IndexEntry)
    (hp : mapGet prodIdx k = some p) (hd : mapGet devIdx k = some d)
    (hcomp : p.compHash = d.compHash) :
    k ∉ meaningfulKeys prodIdx devIdx := by
  intro hmem
  rw [meaningfulKeys] at hmem
  obtain ⟨kd, hkd, hfst⟩ := List.mem_map.mp hmem
  obtain ⟨hkd_mem, hkd_pred⟩ := List.mem_filter.mp hkd
  obtain ⟨k', d'⟩ := kd
  simp only at hfst
  subst hfst
  have h2 : mapGet devIdx k' = some d' := mapGet_of_mem_nodup devIdx k' d' hnd hkd_mem
  rw [hd] at h2
  have hde : d' = d := (by simpa using h2 : d = d').symm
  subst hde
  simp only [meaningfulPred, hp, bne_iff_ne, ne_eq, Bool.and_eq_true] at hkd_pred
  exact absurd hcomp.symm (by simpa using hkd_pred.2)

theorem not_mem_excludedOnlyKeys_of (prodIdx devIdx : List (String × IndexEntry))
    (hnd : (mapKeys devIdx).Nodup) (k : String) (p d : IndexEntry)
    (hp : mapGet prodIdx k = some p) (hd : mapGet devIdx k = some d)
    (hcomp : p.compHash ≠ d.compHash) :
    k ∉ excludedOnlyKeys prodIdx devIdx := by
  intro hmem
  rw [excludedOnlyKeys] at hmem
  obtain ⟨kd, hkd, hfst⟩ := List.mem_map.mp hmem
  obtain ⟨hkd_mem, hkd_pred⟩ := List.mem_filter.mp hkd
  obtain ⟨k', d'⟩ := kd
  simp only at hfst
  subst hfst
  have h2 : mapGet devIdx k' = some d' := mapGet_of_mem_nodup devIdx k' d' hnd hkd_mem
  rw [hd] at h2
  have hde : d' = d := (by simpa using h2 : d = d').symm
  subst hde
  simp only [excludedOnlyPred, hp, Bool.and_eq_true, beq_iff_eq] at hkd_pred
  exact hcomp hkd_pred.2.symm

/-! ## Partition of matched keys (for the row-count invariant) -/

theorem changedPred_eq_or (prodIdx : List (String × IndexEntry)) (kd : String × IndexEntry) :
    changedPred prodIdx kd = (meaningfulPred prodIdx kd || excludedOnlyPred prodIdx kd) := by
  simp only [changedPred, meaningfulPred, excludedOnlyPred]
  cases hm : mapGet prodIdx kd.1 with
  | none => rfl
  | some p =>
    cases hb : (kd.2.fullHash == p.fullHash) <;>
      cases hc : (kd.2.compHash == p.compHash) <;>
        simp [bne, hb, hc]

theorem meaningful_excluded_disjoint (prodIdx : List (String × IndexEntry))
    (kd : String × IndexEntry) :
    ¬(meaningfulPred prodIdx kd = true ∧ excludedOnlyPred prodIdx kd = true) := by
  rintro ⟨h1, h2⟩
  simp only [meaningfulPred, excludedOnlyPred] at h1 h2
  cases hm : mapGet prodIdx kd.1 with
  | none => rw [hm] at h1; exact absurd h1 (by simp)
  | some p =>
    rw [hm] at h1 h2
    simp only [Bool.and_eq_true, bne_iff_ne, ne_eq, beq_iff_eq] at h1 h2
    exact h1.2 h2.2

theorem changed_le_matched (prodIdx devIdx : List (String × IndexEntry)) :
    (devIdx.filter (changedPred prodIdx)).length ≤
      (devIdx.filter fun kd => (mapGet prodIdx kd.1).isSome).length := by
  apply length_filter_mono
  intro kd _ hc
  simp only [changedPred] at hc
  cases hm : mapGet prodIdx kd.1 with
  | none => rw [hm] at hc; exact absurd hc (by simp)
  | some p => simp [hm]

theorem updated_add_excluded_eq_changed (prodIdx devIdx : List (String × IndexEntry)) :
    (meaningfulKeys prodIdx devIdx).length + (excludedOnlyKeys prodIdx devIdx).length =
      (devIdx.filter (changedPred prodIdx)).length := by
  rw [meaningfulKeys, excludedOnlyKeys, List.length_map, List.length_map]
  exact length_filter_partition devIdx _ _ _
    (fun kd => meaningful_excluded_disjoint prodIdx kd)
    (fun kd => changedPred_eq_or prodIdx kd)

/-! ## Lemmas about `comparisonKeys` emptiness (claim C9 support) -/

theorem mem_missingFrom (primaryKeys : List String) (csv : ParsedCSV) (k : String) :
    k ∈ missingFrom primaryKeys csv ↔ k ∈ primaryKeys ∧ k ∉ csv.headers := by
  simp [missingFrom]

theorem index_comp_eq_full (opts : DiffOptions) (common : List String) (rows : List Row) :
    ∀ p ∈ buildIndex opts common [] rows, p.2.compHash = p.2.fullHash :=
  buildIndex_forall_values opts common [] (fun e => e.compHash = e.fullHash)
    (fun n row => by simp [indexEntry]) rows

/-! ## Claims -/

/-- Claim C4, counterexample: for a single-column primary key, a row lacking
the key column gets the empty string as its composite match key, not the
literal `<missing>`; behaviourally, a baseline row lacking `id` does not
align with a candidate row whose `id` is the literal string `<missing>` (the
pair is reported as one removal plus one addition, not as a match). -/
theorem c4_counterexample :
    makeCompositeKey ([] : Row) ["id"] = "" ∧ ("" : String) ≠ "<missing>" ∧
    (computeDiff ⟨["id"], EXCLUDED_COLUMN_PATTERNS, true, true⟩
        ⟨["id"], [[]], 1⟩ ⟨["id"], [[("id", "<missing>")]], 1⟩).toOption.map
      (fun r => (r.rows_added, r.rows_removed)) = some (1, 1) := by
  refine ⟨rfl, by decide, by decide⟩

/-- Claim C4 (amended): for a single-column primary key the composite match
key used to align rows is the column's raw value when present and the empty
string when the column is absent; the literal `<missing>` is substituted for
absent values only in the display key used for reporting. -/
theorem c4_match_key_amended (row : Row) (k : String) :
    makeCompositeKey row [k] = (getCell row k).getD "" ∧
    getDisplayKey row [k] = (getCell row k).getD "<missing>" :=
  ⟨rfl, rfl⟩

/-- Claim C3: `computeDiff` raises an error if and only if some primary-key
column is absent from one of the two datasets' headers; the error names
exactly the primary-key columns absent from the offending dataset's headers
and lists that dataset's available columns (sorted, deduplicated); the
production file is checked first.  In the embedding an error excludes any
result, so no partial report exists on error. -/
theorem c3_missing_primary_key_error (opts : DiffOptions) (prodCsv devCsv : ParsedCSV) :
    ((∃ e, computeDiff opts prodCsv devCsv = Except.error e) ↔
      ¬ ∀ k ∈ opts.primaryKeys, k ∈ prodCsv.headers ∧ k ∈ devCsv.headers) ∧
    (∀ e, computeDiff opts prodCsv devCsv = Except.error e →
      ((e.side = DatasetSide.production ∧
        (∀ k, k ∈ e.missingKeys ↔ k ∈ opts.primaryKeys ∧ k ∉ prodCsv.headers) ∧
        e.availableColumns = sortStrings (dedupFirst prodCsv.headers) ∧
        e.missingKeys ≠ []) ∨
       (e.side = DatasetSide.development ∧
        (∀ k, k ∈ e.missingKeys ↔ k ∈ opts.primaryKeys ∧ k ∉ devCsv.headers) ∧
        e.availableColumns = sortStrings (dedupFirst devCsv.headers) ∧
        e.missingKeys ≠ [] ∧
        (∀ k ∈ opts.primaryKeys, k ∈ prodCsv.headers)))) := by
  have hval : (∀ k ∈ opts.primaryKeys, k ∈ prodCsv.headers ∧ k ∈ devCsv.headers) ↔
      (missingFrom opts.primaryKeys prodCsv = [] ∧
        missingFrom opts.primaryKeys devCsv = []) := by
    rw [missingFrom_eq_nil_iff, missingFrom_eq_nil_iff]
    constructor
    · intro h
      exact ⟨fun k hk => (h k hk).1, fun k hk => (h k hk).2⟩
    · intro h k hk
      exact ⟨h.1 k hk, h.2 k hk⟩
  constructor
  · constructor
    · rintro ⟨e, he⟩ hall
      rcases (computeDiff_error_iff opts prodCsv devCsv e).mp he with ⟨hne, -⟩ | ⟨-, hne, -⟩
      · exact hne (hval.mp hall).1
      · exact hne (hval.mp hall).2
    · intro hnot
      by_cases hp : missingFrom opts.primaryKeys prodCsv = []
      · by_cases hd : missingFrom opts.primaryKeys devCsv = []
        · exact absurd (hval.mpr ⟨hp, hd⟩) hnot
        · exact ⟨_, (computeDiff_error_iff opts prodCsv devCsv _).mpr (Or.inr ⟨hp, hd, rfl⟩)⟩
      · exact ⟨_, (computeDiff_error_iff opts prodCsv devCsv _).mpr (Or.inl ⟨hp, rfl⟩)⟩
  · intro e he
    rcases (computeDiff_error_iff opts prodCsv devCsv e).mp he with ⟨hne, hee⟩ | ⟨hp, hne, hee⟩
    · refine Or.inl ?_
      rw [hee]
      exact ⟨rfl, fun k => mem_missingFrom opts.primaryKeys prodCsv k, rfl, hne⟩
    · refine Or.inr ?_
      rw [hee]
      exact ⟨rfl, fun k => mem_missingFrom opts.primaryKeys devCsv k, rfl, hne,
        (missingFrom_eq_nil_iff _ _).mp hp⟩

/-- Claim C3, witness: a two-column primary key with one column absent from
the production file produces exactly the production-side error. -/
theorem c3_witness :
    (∃ e, computeDiff ⟨["id", "zz"], EXCLUDED_COLUMN_PATTERNS, true, true⟩
      ⟨["id"], [], 0⟩ ⟨["id", "zz"], [], 0⟩ = Except.error e) ∧
    (∀ e, computeDiff ⟨["id", "zz"], EXCLUDED_COLUMN_PATTERNS, true, true⟩
        ⟨["id"], [], 0⟩ ⟨["id", "zz"], [], 0⟩ = Except.error e →
      e.side = DatasetSide.production ∧ "zz" ∈ e.missingKeys ∧ "id" ∉ e.missingKeys ∧
        e.availableColumns = ["id"]) := by
  have h := c3_missing_primary_key_error ⟨["id", "zz"], EXCLUDED_COLUMN_PATTERNS, true, true⟩
    ⟨["id"], [], 0⟩ ⟨["id", "zz"], [], 0⟩
  refine ⟨h.1.mpr (by decide), ?_⟩
  intro e he
  rcases h.2 e he with ⟨hside, hmem, havail, -⟩ | ⟨-, -, -, -, hcon⟩
  · refine ⟨hside, (hmem "zz").mpr (by decide), ?_, ?_⟩
    · intro hc
      exact absurd ((hmem "id").mp hc) (by decide)
    · rw [havail]
      decide
  · exact absurd (hcon "zz" (by decide)) (by decide)

/-- Claim C5: diffing a dataset against itself with any valid primary key
yields zero added, removed, updated, and excluded-only rows. -/
theorem c5_self_diff_zero (opts : DiffOptions) (A : ParsedCSV)
    (hvalid : ∀ k ∈ opts.primaryKeys, k ∈ A.headers) :
    ∃ r, computeDiff opts A A = Except.ok r ∧
      r.rows_added = 0 ∧ r.rows_removed = 0 ∧ r.rows_updated = 0 ∧
      r.rows_updated_excluded_only = 0 := by
  have hm : missingFrom opts.primaryKeys A = [] := (missingFrom_eq_nil_iff _ _).mpr hvalid
  have hidx : devIndexOf opts A A = prodIndexOf opts A A := rfl
  have hnd : (mapKeys (prodIndexOf opts A A)).Nodup :=
    nodupKeys_buildIndex opts (commonKeysOf A A) (comparisonKeysOf opts A A) A.rows
  refine ⟨diffBody opts A A, (computeDiff_ok_iff opts A A _).mpr ⟨hm, hm, rfl⟩, ?_, ?_, ?_, ?_⟩
  · rw [diffBody_rows_added, addedKeyList_nil_of_present]
    · rfl
    · intro row hrow
      apply (mapGet_isSome_iff _ _).mpr
      rw [show prodIndexOf opts A A =
        buildIndex opts (commonKeysOf A A) (comparisonKeysOf opts A A) A.rows from rfl]
      rw [keys_buildIndex, mem_dedupFirst]
      exact List.mem_map.mpr ⟨row, hrow, rfl⟩
  · rw [diffBody_rows_removed, hidx, removedKeys_self_nil]
    rfl
  · rw [diffBody_rows_updated, hidx, meaningfulKeys_self_nil _ hnd]
    rfl
  · rw [diffBody_rows_excluded, hidx, excludedOnlyKeys_self_nil _ hnd]
    rfl

/-- Claim C5, witness: a concrete two-row dataset with a composite key
diffed against itself. -/
theorem c5_witness :
    ∃ r, computeDiff ⟨["id", "region"], EXCLUDED_COLUMN_PATTERNS, true, true⟩
        ⟨["id", "region", "inventory"],
          [[("id", "1"), ("region", "eu"), ("inventory", "5")],
           [("id", "1"), ("region", "us")]], 2⟩
        ⟨["id", "region", "inventory"],
          [[("id", "1"), ("region", "eu"), ("inventory", "5")],
           [("id", "1"), ("region", "us")]], 2⟩ = Except.ok r ∧
      r.rows_added = 0 ∧ r.rows_removed = 0 ∧ r.rows_updated = 0 ∧
      r.rows_updated_excluded_only = 0 :=
  c5_self_diff_zero ⟨["id", "region"], EXCLUDED_COLUMN_PATTERNS, true, true⟩ _ (by decide)

/-! ## Claim C8: primary key auto-detection -/

theorem bne_empty_eq_decide (v : String) : (v != "") = decide (v ≠ "") := by
  by_cases hv : v = ""
  · simp [hv]
  · simp [hv]

theorem uniquenessOk_eq_nat (csv : ParsedCSV) (h : String) :
    uniquenessOk csv h =
      (let nonEmpty := (csv.rows.map fun r => cellD r h).filter fun v => decide (v ≠ "")
       decide (19 * nonEmpty.length < 20 * (dedupFirst nonEmpty).length)) := by
  have hfe : ((csv.rows.map fun r => cellD r h).filter fun v => v != "") =
      ((csv.rows.map fun r => cellD r h).filter fun v => decide (v ≠ "")) := by
    apply List.filter_congr
    intro v _
    exact bne_empty_eq_decide v
  rw [uniquenessOk, hfe]
  set nonEmpty := (csv.rows.map fun r => cellD r h).filter fun v => decide (v ≠ "") with hne
  by_cases hn : nonEmpty.length = 0
  · have hnil : nonEmpty = [] := List.length_eq_zero.mp hn
    simp [hnil, dedupFirst, dedupFirstFrom]
  · have hpos : 0 < nonEmpty.length := Nat.pos_of_ne_zero hn
    have hn0 : (nonEmpty.length == 0) = false := by simpa using hn
    simp only [hn0, Bool.false_eq_true, if_false]
    have hiff : ((19 : ℚ) / 20 < ((dedupFirst nonEmpty).length : ℚ) / (nonEmpty.length : ℚ)) ↔
        (19 * nonEmpty.length < 20 * (dedupFirst nonEmpty).length) := by
      rw [div_lt_div_iff₀ (by norm_num) (by exact_mod_cast hpos)]
      constructor
      · intro hlt
        have := hlt
        rw [show ((19 : ℚ) * nonEmpty.length = ((19 * nonEmpty.length : ℕ) : ℚ)) by push_cast; ring,
          show (((dedupFirst nonEmpty).length : ℚ) * 20 = ((20 * (dedupFirst nonEmpty).length : ℕ) : ℚ)) by push_cast; ring] at this
        exact_mod_cast this
      · intro hlt
        have : ((19 * nonEmpty.length : ℕ) : ℚ) < ((20 * (dedupFirst nonEmpty).length : ℕ) : ℚ) := by
          exact_mod_cast hlt
        rw [show (((19 * nonEmpty.length : ℕ)) : ℚ) = (19 : ℚ) * nonEmpty.length by push_cast; ring,
          show (((20 * (dedupFirst nonEmpty).length : ℕ)) : ℚ) = ((dedupFirst nonEmpty).length : ℚ) * 20 by push_cast; ring] at this
        exact this
    by_cases hq : (19 : ℚ) / 20 < ((dedupFirst nonEmpty).length : ℚ) / (nonEmpty.length : ℚ)
    · simp [hq, hiff.mp hq]
    · have hnot : ¬ 19 * nonEmpty.length < 20 * (dedupFirst nonEmpty).length :=
        fun hc => hq (hiff.mpr hc)
      simp [hq, Nat.not_lt.mp hnot]

/-- Claim C8: when no primary key is supplied, auto-detection returns the
first common id-like name exactly present in the headers; otherwise the
first header column whose ratio of distinct non-empty values to non-empty
values strictly exceeds 0.95; otherwise the first header column; and it
fails exactly when the dataset has zero columns.  The first conjunct is the
refinement of the source algorithm against the specification-worded
`detectPrimaryKeySpec`; the second settles the failure condition. -/
theorem c8_auto_detection (csv : ParsedCSV) :
    detectPrimaryKey csv = detectPrimaryKeySpec csv ∧
    (detectPrimaryKey csv = none ↔ csv.headers = []) := by
  have hpred : csv.headers.find? (uniquenessOk csv) =
      csv.headers.find? (fun h =>
        let nonEmpty := (csv.rows.map fun r => cellD r h).filter fun v => decide (v ≠ "")
        decide (19 * nonEmpty.length < 20 * (dedupFirst nonEmpty).length)) := by
    apply congrArg (csv.headers.find? ·)
    funext h
    exact uniquenessOk_eq_nat csv h
  constructor
  · rw [detectPrimaryKey, detectPrimaryKeySpec]
    cases h1 : COMMON_PRIMARY_KEY_NAMES.find? fun name => decide (name ∈ csv.headers) with
    | some name => simp [h1]
    | none =>
      rw [hpred]
      cases h2 : csv.headers.find? (fun h =>
          let nonEmpty := (csv.rows.map fun r => cellD r h).filter fun v => decide (v ≠ "")
          decide (19 * nonEmpty.length < 20 * (dedupFirst nonEmpty).length)) with
      | some header => simp [h1, h2]
      | none =>
        cases hh : csv.headers with
        | nil => simp [h1, h2, hh]
        | cons a rest => simp [h1, h2, hh]
  · constructor
    · intro hnone
      cases hh : csv.headers with
      | nil => rfl
      | cons a rest =>
        rw [detectPrimaryKey] at hnone
        cases h1 : COMMON_PRIMARY_KEY_NAMES.find? fun name => decide (name ∈ csv.headers) with
        | some name => rw [h1] at hnone; exact absurd hnone (by simp)
        | none =>
          rw [h1] at hnone
          cases h2 : csv.headers.find? (uniquenessOk csv) with
          | some header => rw [h2] at hnone; exact absurd hnone (by simp)
          | none =>
            rw [h2, hh] at hnone
            exact absurd hnone (by simp)
    · intro hh
      rw [detectPrimaryKey]
      have h1 : COMMON_PRIMARY_KEY_NAMES.find? (fun name => decide (name ∈ csv.headers)) = none := by
        apply List.find?_eq_none.mpr
        intro name _
        simp [hh]
      have h2 : csv.headers.find? (uniquenessOk csv) = none := by
        rw [hh]
        rfl
      rw [h1, h2, hh]

/-- Claim C8, witness: `id` present in the headers short-circuits detection;
a dataset with no columns fails. -/
theorem c8_witness :
    detectPrimaryKey ⟨["name", "id"], [], 0⟩ = detectPrimaryKeySpec ⟨["name", "id"], [], 0⟩ ∧
    detectPrimaryKey ⟨["name", "id"], [], 0⟩ = some ["id"] ∧
    (detectPrimaryKey ⟨[], [[("a", "b")]], 1⟩ = none ↔
      (⟨[], [[("a", "b")]], 1⟩ : ParsedCSV).headers = []) := by
  refine ⟨(c8_auto_detection ⟨["name", "id"], [], 0⟩).1, rfl,
    (c8_auto_detection ⟨[], [[("a", "b")]], 1⟩).2⟩

/-- Claim C2: on every successful diff, `rows_added` counts the distinct
candidate-only keys, `rows_removed` the distinct baseline-only keys, the two
update counters together never exceed the number of matched keys, and
`rows_added + rows_removed + rows_updated + rows_updated_excluded_only +
unchanged` equals the number of distinct composite keys in the union of the
two datasets' key sets, where `unchanged` is the number of matched keys
minus the two update counters. -/
theorem c2_row_count_invariant (opts : DiffOptions) (prodCsv devCsv : ParsedCSV)
    (r : DiffResult) (hok : computeDiff opts prodCsv devCsv = Except.ok r) :
    r.rows_added = (keySetOf opts devCsv \ keySetOf opts prodCsv).card ∧
    r.rows_removed = (keySetOf opts prodCsv \ keySetOf opts devCsv).card ∧
    r.rows_updated + r.rows_updated_excluded_only ≤
      (keySetOf opts prodCsv ∩ keySetOf opts devCsv).card ∧
    r.rows_added + r.rows_removed + r.rows_updated + r.rows_updated_excluded_only +
      ((keySetOf opts prodCsv ∩ keySetOf opts devCsv).card -
        r.rows_updated - r.rows_updated_excluded_only) =
      (keySetOf opts prodCsv ∪ keySetOf opts devCsv).card := by
  obtain ⟨-, -, hr⟩ := (computeDiff_ok_iff opts prodCsv devCsv r).mp hok
  subst hr
  have h1 : (diffBody opts prodCsv devCsv).rows_added =
      (keySetOf opts devCsv \ keySetOf opts prodCsv).card := by
    rw [diffBody_rows_added, rows_added_eq_card]
  have h2 : (diffBody opts prodCsv devCsv).rows_removed =
      (keySetOf opts prodCsv \ keySetOf opts devCsv).card := by
    rw [diffBody_rows_removed, rows_removed_eq_card]
  have h3 : (diffBody opts prodCsv devCsv).rows_updated +
      (diffBody opts prodCsv devCsv).rows_updated_excluded_only ≤
      (keySetOf opts prodCsv ∩ keySetOf opts devCsv).card := by
    rw [diffBody_rows_updated, diffBody_rows_excluded, updated_add_excluded_eq_changed]
    exact le_trans (changed_le_matched _ _) (le_of_eq (matched_eq_card opts prodCsv devCsv))
  refine ⟨h1, h2, h3, ?_⟩
  have hsum : (keySetOf opts devCsv \ keySetOf opts prodCsv).card +
      (keySetOf opts prodCsv \ keySetOf opts devCsv).card +
      (keySetOf opts prodCsv ∩ keySetOf opts devCsv).card =
      (keySetOf opts prodCsv ∪ keySetOf opts devCsv).card := by
    have e1 : (keySetOf opts prodCsv \ keySetOf opts devCsv).card +
        (keySetOf opts devCsv).card =
        (keySetOf opts prodCsv ∪ keySetOf opts devCsv).card :=
      Finset.card_sdiff_add_card _ _
    have e2 : (keySetOf opts devCsv \ keySetOf opts prodCsv).card +
        (keySetOf opts devCsv ∩ keySetOf opts prodCsv).card =
        (keySetOf opts devCsv).card :=
      Finset.card_sdiff_add_card_inter _ _
    rw [Finset.inter_comm] at e2
    omega
  rw [h1, h2]
  omega

/-- Claim C2, witness: a mixed concrete diff (one added, one removed, one
meaningful change, one excluded-only change, one unchanged row). -/
theorem c2_witness :
    (diffBody ⟨["id"], EXCLUDED_COLUMN_PATTERNS, true, true⟩
        ⟨["id", "name", "inventory"],
          [[("id", "1"), ("name", "a"), ("inventory", "5")],
           [("id", "2"), ("name", "b"), ("inventory", "6")],
           [("id", "3"), ("name", "c"), ("inventory", "7")],
           [("id", "4"), ("name", "d"), ("inventory", "8")]], 4⟩
        ⟨["id", "name", "inventory"],
          [[("id", "1"), ("name", "a"), ("inventory", "5")],
           [("id", "2"), ("name", "B"), ("inventory", "6")],
           [("id", "3"), ("name", "c"), ("inventory", "9")],
           [("id", "5"), ("name", "e"), ("inventory", "8")]], 4⟩).rows_added +
      (diffBody ⟨["id"], EXCLUDED_COLUMN_PATTERNS, true, true⟩
        ⟨["id", "name", "inventory"],
          [[("id", "1"), ("name", "a"), ("inventory", "5")],
           [("id", "2"), ("name", "b"), ("inventory", "6")],
           [("id", "3"), ("name", "c"), ("inventory", "7")],
           [("id", "4"), ("name", "d"), ("inventory", "8")]], 4⟩
        ⟨["id", "name", "inventory"],
          [[("id", "1"), ("name", "a"), ("inventory", "5")],
           [("id", "2"), ("name", "B"), ("inventory", "6")],
           [("id", "3"), ("name", "c"), ("inventory", "9")],
           [("id", "5"), ("name", "e"), ("inventory", "8")]], 4⟩).rows_removed +
      (diffBody ⟨["id"], EXCLUDED_COLUMN_PATTERNS, true, true⟩
        ⟨["id", "name", "inventory"],
          [[("id", "1"), ("name", "a"), ("inventory", "5")],
           [("id", "2"), ("name", "b"), ("inventory", "6")],
           [("id", "3"), ("name", "c"), ("inventory", "7")],
           [("id", "4"), ("name", "d"), ("inventory", "8")]], 4⟩
        ⟨["id", "name", "inventory"],
          [[("id", "1"), ("name", "a"), ("inventory", "5")],
           [("id", "2"), ("name", "B"), ("inventory", "6")],
           [("id", "3"), ("name", "c"), ("inventory", "9")],
           [("id", "5"), ("name", "e"), ("inventory", "8")]], 4⟩).rows_updated +
      (diffBody ⟨["id"], EXCLUDED_COLUMN_PATTERNS, true, true⟩
        ⟨["id", "name", "inventory"],
          [[("id", "1"), ("name", "a"), ("inventory", "5")],
           [("id", "2"), ("name", "b"), ("inventory", "6")],
           [("id", "3"), ("name", "c"), ("inventory", "7")],
           [("id", "4"), ("name", "d"), ("inventory", "8")]], 4⟩
        ⟨["id", "name", "inventory"],
          [[("id", "1"), ("name", "a"), ("inventory", "5")],
           [("id", "2"), ("name", "B"), ("inventory", "6")],
           [("id", "3"), ("name", "c"), ("inventory", "9")],
           [("id", "5"), ("name", "e"), ("inventory", "8")]], 4⟩).rows_updated_excluded_only = 4 := by
  have h := c2_row_count_invariant ⟨["id"], EXCLUDED_COLUMN_PATTERNS, true, true⟩
    ⟨["id", "name", "inventory"],
      [[("id", "1"), ("name", "a"), ("inventory", "5")],
       [("id", "2"), ("name", "b"), ("inventory", "6")],
       [("id", "3"), ("name", "c"), ("inventory", "7")],
       [("id", "4"), ("name", "d"), ("inventory", "8")]], 4⟩
    ⟨["id", "name", "inventory"],
      [[("id", "1"), ("name", "a"), ("inventory", "5")],
       [("id", "2"), ("name", "B"), ("inventory", "6")],
       [("id", "3"), ("name", "c"), ("inventory", "9")],
       [("id", "5"), ("name", "e"), ("inventory", "8")]], 4⟩ _ rfl
  obtain ⟨h1, h2, h3, h4⟩ := h
  rw [h1, h2]
  have hu : (diffBody ⟨["id"], EXCLUDED_COLUMN_PATTERNS, true, true⟩
      ⟨["id", "name", "inventory"],
        [[("id", "1"), ("name", "a"), ("inventory", "5")],
         [("id", "2"), ("name", "b"), ("inventory", "6")],
         [("id", "3"), ("name", "c"), ("inventory", "7")],
         [("id", "4"), ("name", "d"), ("inventory", "8")]], 4⟩
      ⟨["id", "name", "inventory"],
        [[("id", "1"), ("name", "a"), ("inventory", "5")],
         [("id", "2"), ("name", "B"), ("inventory", "6")],
         [("id", "3"), ("name", "c"), ("inventory", "9")],
         [("id", "5"), ("name", "e"), ("inventory", "8")]], 4⟩).rows_updated = 1 := by decide
  have he : (diffBody ⟨["id"], EXCLUDED_COLUMN_PATTERNS, true, true⟩
      ⟨["id", "name", "inventory"],
        [[("id", "1"), ("name", "a"), ("inventory", "5")],
         [("id", "2"), ("name", "b"), ("inventory", "6")],
         [("id", "3"), ("name", "c"), ("inventory", "7")],
         [("id", "4"), ("name", "d"), ("inventory", "8")]], 4⟩
      ⟨["id", "name", "inventory"],
        [[("id", "1"), ("name", "a"), ("inventory", "5")],
         [("id", "2"), ("name", "B"), ("inventory", "6")],
         [("id", "3"), ("name", "c"), ("inventory", "9")],
         [("id", "5"), ("name", "e"), ("inventory", "8")]], 4⟩).rows_updated_excluded_only = 1 := by
    decide
  rw [hu, he]
  decide

/-- Claim C9: when every common column matches an excluded pattern the
comparison column set is empty, every index entry's comparison hash is
defined to equal its full hash, `rows_updated_excluded_only` is zero, and
every matched key with differing full hashes is classified as meaningful. -/
theorem c9_all_common_excluded (opts : DiffOptions) (prodCsv devCsv : ParsedCSV)
    (r : DiffResult) (hok : computeDiff opts prodCsv devCsv = Except.ok r)
    (hexc : ∀ k ∈ commonKeysOf prodCsv devCsv, isExcludedColumn k opts.excludedPatterns = true) :
    comparisonKeysOf opts prodCsv devCsv = [] ∧
    (∀ k e, mapGet (prodIndexOf opts prodCsv devCsv) k = some e → e.compHash = e.fullHash) ∧
    (∀ k e, mapGet (devIndexOf opts prodCsv devCsv) k = some e → e.compHash = e.fullHash) ∧
    r.rows_updated_excluded_only = 0 ∧
    (∀ k p d, mapGet (prodIndexOf opts prodCsv devCsv) k = some p →
      mapGet (devIndexOf opts prodCsv devCsv) k = some d →
      p.fullHash ≠ d.fullHash →
      k ∈ meaningfulKeys (prodIndexOf opts prodCsv devCsv) (devIndexOf opts prodCsv devCsv) ∧
      1 ≤ r.rows_updated) := by
  obtain ⟨-, -, hr⟩ := (computeDiff_ok_iff opts prodCsv devCsv r).mp hok
  subst hr
  have hcmp : comparisonKeysOf opts prodCsv devCsv = [] := by
    rw [comparisonKeysOf]
    apply List.filter_eq_nil_iff.mpr
    intro k hk
    simp [hexc k hk]
  have hPp : ∀ q ∈ prodIndexOf opts prodCsv devCsv, q.2.compHash = q.2.fullHash := by
    rw [prodIndexOf, hcmp]
    exact index_comp_eq_full opts _ _
  have hPd : ∀ q ∈ devIndexOf opts prodCsv devCsv, q.2.compHash = q.2.fullHash := by
    rw [devIndexOf, hcmp]
    exact index_comp_eq_full opts _ _
  have hgp : ∀ k e, mapGet (prodIndexOf opts prodCsv devCsv) k = some e →
      e.compHash = e.fullHash := fun k e he => hPp (k, e) (mapGet_mem _ k e he)
  have hgd : ∀ k e, mapGet (devIndexOf opts prodCsv devCsv) k = some e →
      e.compHash = e.fullHash := fun k e he => hPd (k, e) (mapGet_mem _ k e he)
  refine ⟨hcmp, hgp, hgd, ?_, ?_⟩
  · rw [diffBody_rows_excluded, excludedOnlyKeys]
    rw [List.filter_eq_nil_iff.mpr, List.map_nil, List.length_nil]
    intro kd hkd
    cases hm : mapGet (prodIndexOf opts prodCsv devCsv) kd.1 with
    | none => simp [excludedOnlyPred, hm]
    | some p =>
      have h1 : kd.2.compHash = kd.2.fullHash := hPd kd hkd
      have h2 : p.compHash = p.fullHash := hgp kd.1 p hm
      by_cases hfe : kd.2.fullHash = p.fullHash
      · simp [excludedOnlyPred, hm, hfe, bne]
      · have hce : kd.2.compHash ≠ p.compHash := by
          rw [h1, h2]
          exact hfe
        simp [excludedOnlyPred, hm, hce, bne]
  · intro k p d hp hd hfull
    have hcne : p.compHash ≠ d.compHash := by
      rw [hgp k p hp, hgd k d hd]
      exact hfull
    have hmem := mem_meaningfulKeys_of _ _ k p d hp hd hfull hcne
    exact ⟨hmem, by
      rw [diffBody_rows_updated]
      exact List.length_pos_of_mem hmem⟩

/-- Options for the C9 witness: primary key `id_inventory` (itself an
excluded column). -/
def c9wOpts : DiffOptions :=
  ⟨["id_inventory"], EXCLUDED_COLUMN_PATTERNS, true, true⟩

/-- Baseline for the C9 witness: both columns match excluded patterns. -/
def c9wProd : ParsedCSV :=
  ⟨["id_inventory", "stock_availability"],
    [[("id_inventory", "1"), ("stock_availability", "x")]], 1⟩

/-- Candidate for the C9 witness: the `stock_availability` value changed. -/
def c9wDev : ParsedCSV :=
  ⟨["id_inventory", "stock_availability"],
    [[("id_inventory", "1"), ("stock_availability", "y")]], 1⟩

/-- Claim C9, witness: with every common column excluded, the matched
changed row is counted as meaningful and the excluded-only counter is zero. -/
theorem c9_witness :
    comparisonKeysOf c9wOpts c9wProd c9wDev = [] ∧
    1 ≤ (diffBody c9wOpts c9wProd c9wDev).rows_updated ∧
    (diffBody c9wOpts c9wProd c9wDev).rows_updated_excluded_only = 0 := by
  have h := c9_all_common_excluded c9wOpts c9wProd c9wDev _ rfl (by decide)
  refine ⟨h.1, ?_, h.2.2.2.1⟩
  have hsp : (mapGet (prodIndexOf c9wOpts c9wProd c9wDev) "1").isSome = true := by decide
  have hsd : (mapGet (devIndexOf c9wOpts c9wProd c9wDev) "1").isSome = true := by decide
  obtain ⟨p, hp⟩ := Option.isSome_iff_exists.mp hsp
  obtain ⟨d, hd⟩ := Option.isSome_iff_exists.mp hsd
  have hne : (mapGet (prodIndexOf c9wOpts c9wProd c9wDev) "1").map (fun e => e.fullHash) ≠
      (mapGet (devIndexOf c9wOpts c9wProd c9wDev) "1").map (fun e => e.fullHash) := by
    decide
  have hfull : p.fullHash ≠ d.fullHash := by
    intro hc
    apply hne
    rw [hp, hd, Option.map_some', Option.map_some', hc]
  exact (h.2.2.2.2 "1" p d hp hd hfull).2

/-- Claim C1 (amended): differences confined to excluded columns leave the
comparison-hash input unchanged (first conjunct: the comparison hash is a
function of the normalized comparison-column values); a matched row whose
full hashes differ is counted in `rows_updated_excluded_only` and never in
`rows_updated` when its comparison hashes agree, and in `rows_updated` and
never in `rows_updated_excluded_only` when they differ.  The hash-inequality
premises are the amendment: the engine compares djb2 digests, so a digest
collision (accepted by design) can mask a change — see `c1_counterexample`. -/
theorem c1_excluded_separation_amended (opts : DiffOptions) (prodCsv devCsv : ParsedCSV)
    (r : DiffResult) (hok : computeDiff opts prodCsv devCsv = Except.ok r) :
    (∀ r₁ r₂ : Row,
      (∀ c ∈ comparisonKeysOf opts prodCsv devCsv,
        normalizeValue (cellD r₁ c) opts.caseSensitive opts.trimWhitespace =
        normalizeValue (cellD r₂ c) opts.caseSensitive opts.trimWhitespace) →
      hashRow r₁ (comparisonKeysOf opts prodCsv devCsv) opts.caseSensitive opts.trimWhitespace =
      hashRow r₂ (comparisonKeysOf opts prodCsv devCsv) opts.caseSensitive opts.trimWhitespace) ∧
    (∀ k p d, mapGet (prodIndexOf opts prodCsv devCsv) k = some p →
      mapGet (devIndexOf opts prodCsv devCsv) k = some d →
      (p.fullHash ≠ d.fullHash → p.compHash = d.compHash →
        k ∈ excludedOnlyKeys (prodIndexOf opts prodCsv devCsv) (devIndexOf opts prodCsv devCsv) ∧
        k ∉ meaningfulKeys (prodIndexOf opts prodCsv devCsv) (devIndexOf opts prodCsv devCsv) ∧
        1 ≤ r.rows_updated_excluded_only) ∧
      (p.fullHash ≠ d.fullHash → p.compHash ≠ d.compHash →
        k ∈ meaningfulKeys (prodIndexOf opts prodCsv devCsv) (devIndexOf opts prodCsv devCsv) ∧
        k ∉ excludedOnlyKeys (prodIndexOf opts prodCsv devCsv) (devIndexOf opts prodCsv devCsv) ∧
        1 ≤ r.rows_updated)) := by
  obtain ⟨-, -, hr⟩ := (computeDiff_ok_iff opts prodCsv devCsv r).mp hok
  subst hr
  have hnd : (mapKeys (devIndexOf opts prodCsv devCsv)).Nodup :=
    nodupKeys_buildIndex opts (commonKeysOf prodCsv devCsv)
      (comparisonKeysOf opts prodCsv devCsv) devCsv.rows
  refine ⟨fun r₁ r₂ h => hashRow_congr r₁ r₂ _ _ _ h, ?_⟩
  intro k p d hp hd
  constructor
  · intro hfull hcomp
    have hmem := mem_excludedOnlyKeys_of _ _ k p d hp hd hfull hcomp
    refine ⟨hmem, not_mem_meaningfulKeys_of _ _ hnd k p d hp hd hcomp, ?_⟩
    rw [diffBody_rows_excluded]
    exact List.length_pos_of_mem hmem
  · intro hfull hcomp
    have hmem := mem_meaningfulKeys_of _ _ k p d hp hd hfull hcomp
    refine ⟨hmem, not_mem_excludedOnlyKeys_of _ _ hnd k p d hp hd hcomp, ?_⟩
    rw [diffBody_rows_updated]
    exact List.length_pos_of_mem hmem

/-- Options for the C1 counterexample and witness: single key `id`, default
excluded patterns, case-sensitive, trimming. -/
def c1Opts : DiffOptions := ⟨["id"], EXCLUDED_COLUMN_PATTERNS, true, true⟩

/-- C1 counterexample baseline: `inventory` holds `xkvyngmp`. -/
def c1cexProd : ParsedCSV :=
  ⟨["id", "inventory"], [[("id", "1"), ("inventory", "xkvyngmp")]], 1⟩

/-- C1 counterexample candidate: `inventory` holds `jdgawdyj`; the full-row
hash input `1|jdgawdyj` collides with `1|xkvyngmp` under the djb2-xor hash. -/
def c1cexDev : ParsedCSV :=
  ⟨["id", "inventory"], [[("id", "1"), ("inventory", "jdgawdyj")]], 1⟩

/-- Claim C1, counterexample: a matched row whose only difference lies in
the excluded column `inventory` (the key values agree and the normalized
inventory values differ) is NOT counted in `rows_updated_excluded_only`: the
two full-row hash inputs collide under djb2-xor, so the engine sees no
change at all.  This refutes the claim as universally stated. -/
theorem c1_counterexample :
    (computeDiff c1Opts c1cexProd c1cexDev).toOption.map
        (fun r => (r.rows_updated, r.rows_updated_excluded_only)) = some (0, 0) ∧
    cellD [("id", "1"), ("inventory", "xkvyngmp")] "id" =
      cellD [("id", "1"), ("inventory", "jdgawdyj")] "id" ∧
    normalizeValue (cellD [("id", "1"), ("inventory", "xkvyngmp")] "inventory") true true ≠
      normalizeValue (cellD [("id", "1"), ("inventory", "jdgawdyj")] "inventory") true true ∧
    isExcludedColumn "inventory" EXCLUDED_COLUMN_PATTERNS = true := by
  refine ⟨by decide, by decide, by decide, by decide⟩

/-- C1 witness baseline: a genuine excluded-only change (`inventory` 5→7). -/
def c1wProd : ParsedCSV :=
  ⟨["id", "name", "inventory"],
    [[("id", "1"), ("name", "a"), ("inventory", "5")]], 1⟩

/-- C1 witness candidate. -/
def c1wDev : ParsedCSV :=
  ⟨["id", "name", "inventory"],
    [[("id", "1"), ("name", "a"), ("inventory", "7")]], 1⟩

/-- Claim C1, witness: the row whose only (non-colliding) difference is in
the excluded `inventory` column lands in the excluded-only category, not in
the meaningful one. -/
theorem c1_witness :
    "1" ∈ excludedOnlyKeys (prodIndexOf c1Opts c1wProd c1wDev)
      (devIndexOf c1Opts c1wProd c1wDev) ∧
    "1" ∉ meaningfulKeys (prodIndexOf c1Opts c1wProd c1wDev)
      (devIndexOf c1Opts c1wProd c1wDev) ∧
    1 ≤ (diffBody c1Opts c1wProd c1wDev).rows_updated_excluded_only := by
  have h := c1_excluded_separation_amended c1Opts c1wProd c1wDev _ rfl
  have hsp : (mapGet (prodIndexOf c1Opts c1wProd c1wDev) "1").isSome = true := by decide
  have hsd : (mapGet (devIndexOf c1Opts c1wProd c1wDev) "1").isSome = true := by decide
  obtain ⟨p, hp⟩ := Option.isSome_iff_exists.mp hsp
  obtain ⟨d, hd⟩ := Option.isSome_iff_exists.mp hsd
  have hfne : (mapGet (prodIndexOf c1Opts c1wProd c1wDev) "1").map (fun e => e.fullHash) ≠
      (mapGet (devIndexOf c1Opts c1wProd c1wDev) "1").map (fun e => e.fullHash) := by decide
  have hceq : (mapGet (prodIndexOf c1Opts c1wProd c1wDev) "1").map (fun e => e.compHash) =
      (mapGet (devIndexOf c1Opts c1wProd c1wDev) "1").map (fun e => e.compHash) := by decide
  have hfull : p.fullHash ≠ d.fullHash := by
    intro hc
    apply hfne
    rw [hp, hd, Option.map_some', Option.map_some', hc]
  have hcomp : p.compHash = d.compHash := by
    have := hceq
    rw [hp, hd, Option.map_some', Option.map_some'] at this
    simpa using this
  exact (h.2 "1" p d hp hd).1 hfull hcomp

/-- Claim C6 (amended): with `caseSensitive := true`, a matched row whose
full-row hashes differ is reported as changed (counted in `rows_updated` or
`rows_updated_excluded_only`); with `caseSensitive := false`, two datasets
whose rows align with equal composite keys and case-insensitively equal
common-column values produce zero added, removed, updated, and excluded-only
counts.  The hash-inequality premise in the first branch is the amendment:
case-sensitive hashing of case-differing values can collide (djb2), masking
the change — see `c6_counterexample`. -/
theorem c6_case_sensitivity_amended (opts : DiffOptions) (prodCsv devCsv : ParsedCSV)
    (r : DiffResult) (hok : computeDiff opts prodCsv devCsv = Except.ok r) :
    (opts.caseSensitive = true →
      ∀ k p d, mapGet (prodIndexOf opts prodCsv devCsv) k = some p →
        mapGet (devIndexOf opts prodCsv devCsv) k = some d →
        p.fullHash ≠ d.fullHash →
        (k ∈ meaningfulKeys (prodIndexOf opts prodCsv devCsv) (devIndexOf opts prodCsv devCsv) ∨
         k ∈ excludedOnlyKeys (prodIndexOf opts prodCsv devCsv) (devIndexOf opts prodCsv devCsv)) ∧
        1 ≤ r.rows_updated + r.rows_updated_excluded_only) ∧
    (opts.caseSensitive = false →
      List.Forall₂ (fun a b =>
        makeCompositeKey a opts.primaryKeys = makeCompositeKey b opts.primaryKeys ∧
        ∀ c ∈ commonKeysOf prodCsv devCsv,
          normalizeValue (cellD a c) false opts.trimWhitespace =
          normalizeValue (cellD b c) false opts.trimWhitespace) prodCsv.rows devCsv.rows →
      r.rows_added = 0 ∧ r.rows_removed = 0 ∧ r.rows_updated = 0 ∧
        r.rows_updated_excluded_only = 0) := by
  obtain ⟨-, -, hr⟩ := (computeDiff_ok_iff opts prodCsv devCsv r).mp hok
  subst hr
  constructor
  · intro _ k p d hp hd hfull
    by_cases hcomp : p.compHash = d.compHash
    · have hmem := mem_excludedOnlyKeys_of _ _ k p d hp hd hfull hcomp
      refine ⟨Or.inr hmem, ?_⟩
      rw [diffBody_rows_updated, diffBody_rows_excluded]
      have := List.length_pos_of_mem hmem
      omega
    · have hmem := mem_meaningfulKeys_of _ _ k p d hp hd hfull hcomp
      refine ⟨Or.inl hmem, ?_⟩
      rw [diffBody_rows_updated, diffBody_rows_excluded]
      have := List.length_pos_of_mem hmem
      omega
  · intro hcs hrel
    have hidxrel : List.Forall₂
        (fun a b => makeCompositeKey a opts.primaryKeys = makeCompositeKey b opts.primaryKeys ∧
          ∀ n, indexEntry opts (commonKeysOf prodCsv devCsv)
            (comparisonKeysOf opts prodCsv devCsv) n a =
            indexEntry opts (commonKeysOf prodCsv devCsv)
              (comparisonKeysOf opts prodCsv devCsv) n b)
        prodCsv.rows devCsv.rows := by
      apply hrel.imp
      intro a b hab
      refine ⟨hab.1, fun n => ?_⟩
      apply indexEntry_congr
      · apply hashRow_congr
        intro c hc
        rw [hcs]
        exact hab.2 c hc
      · apply hashRow_congr
        intro c hc
        rw [hcs]
        exact hab.2 c (comparisonKeys_subset opts prodCsv devCsv c hc)
    have hidx : devIndexOf opts prodCsv devCsv = prodIndexOf opts prodCsv devCsv := by
      rw [devIndexOf, prodIndexOf, buildIndex, buildIndex]
      exact (buildIndexFrom_congr opts _ _ prodCsv.rows devCsv.rows hidxrel 1 []).symm
    have hnd : (mapKeys (prodIndexOf opts prodCsv devCsv)).Nodup :=
      nodupKeys_buildIndex opts (commonKeysOf prodCsv devCsv)
        (comparisonKeysOf opts prodCsv devCsv) prodCsv.rows
    have hck : prodCsv.rows.map (fun row => makeCompositeKey row opts.primaryKeys) =
        devCsv.rows.map (fun row => makeCompositeKey row opts.primaryKeys) :=
      forall₂_map_eq _ _ _ hidxrel _ _ fun a b hab => hab.1
    refine ⟨?_, ?_, ?_, ?_⟩
    · rw [diffBody_rows_added, addedKeyList_nil_of_present]
      · rfl
      · intro row hrow
        apply (mapGet_isSome_iff _ _).mpr
        rw [show prodIndexOf opts prodCsv devCsv = buildIndex opts (commonKeysOf prodCsv devCsv)
          (comparisonKeysOf opts prodCsv devCsv) prodCsv.rows from rfl]
        rw [keys_buildIndex, mem_dedupFirst, hck]
        exact List.mem_map.mpr ⟨row, hrow, rfl⟩
    · rw [diffBody_rows_removed, hidx, removedKeys_self_nil]
      rfl
    · rw [diffBody_rows_updated, hidx, meaningfulKeys_self_nil _ hnd]
      rfl
    · rw [diffBody_rows_excluded, hidx, excludedOnlyKeys_self_nil _ hnd]
      rfl

/-- C6 counterexample baseline: `name` holds `CoLLISIonrEsiStAnt`. -/
def c6cexProd : ParsedCSV :=
  ⟨["id", "name"], [[("id", "1"), ("name", "CoLLISIonrEsiStAnt")]], 1⟩

/-- C6 counterexample candidate: `name` holds `coLlisioNresiStANt`, the same
letters with different casing; the case-sensitive full-hash inputs
`1|CoLLISIonrEsiStAnt` and `1|coLlisioNresiStANt` collide under djb2-xor. -/
def c6cexDev : ParsedCSV :=
  ⟨["id", "name"], [[("id", "1"), ("name", "coLlisioNresiStANt")]], 1⟩

/-- Claim C6, counterexample: with `caseSensitive := true`, a matched row
whose `name` values differ only in letter case (the raw values differ, their
lowercasings agree, the key values agree) is NOT reported as changed — all
four change counts are zero — because the two case-sensitive hash inputs
collide under djb2-xor.  This refutes the claim as universally stated. -/
theorem c6_counterexample :
    (computeDiff c1Opts c6cexProd c6cexDev).toOption.map
        (fun r => ((r.rows_added, r.rows_removed),
          r.rows_updated, r.rows_updated_excluded_only)) = some ((0, 0), 0, 0) ∧
    cellD [("id", "1"), ("name", "CoLLISIonrEsiStAnt")] "name" ≠
      cellD [("id", "1"), ("name", "coLlisioNresiStANt")] "name" ∧
    jsToLower (cellD [("id", "1"), ("name", "CoLLISIonrEsiStAnt")] "name") =
      jsToLower (cellD [("id", "1"), ("name", "coLlisioNresiStANt")] "name") ∧
    cellD [("id", "1"), ("name", "CoLLISIonrEsiStAnt")] "id" =
      cellD [("id", "1"), ("name", "coLlisioNresiStANt")] "id" ∧
    c1Opts.caseSensitive = true := by
  refine ⟨by decide, by decide, by decide, by decide, rfl⟩

/-- C6 witness baseline: `name` is `alice`. -/
def c6wProd : ParsedCSV :=
  ⟨["id", "name"], [[("id", "1"), ("name", "alice")]], 1⟩

/-- C6 witness candidate: `name` is `ALICE` (case-only difference, hashes
do not collide). -/
def c6wDev : ParsedCSV :=
  ⟨["id", "name"], [[("id", "1"), ("name", "ALICE")]], 1⟩

/-- Options for the case-insensitive branch of the C6 witness. -/
def c6wOptsCi : DiffOptions := ⟨["id"], EXCLUDED_COLUMN_PATTERNS, false, true⟩

/-- Claim C6, witness: for the `alice` / `ALICE` pair, case-sensitive
diffing reports the row as changed and case-insensitive diffing reports all
four counts as zero. -/
theorem c6_witness :
    (("1" ∈ meaningfulKeys (prodIndexOf c1Opts c6wProd c6wDev)
        (devIndexOf c1Opts c6wProd c6wDev) ∨
      "1" ∈ excludedOnlyKeys (prodIndexOf c1Opts c6wProd c6wDev)
        (devIndexOf c1Opts c6wProd c6wDev)) ∧
      1 ≤ (diffBody c1Opts c6wProd c6wDev).rows_updated +
        (diffBody c1Opts c6wProd c6wDev).rows_updated_excluded_only) ∧
    ((diffBody c6wOptsCi c6wProd c6wDev).rows_added = 0 ∧
      (diffBody c6wOptsCi c6wProd c6wDev).rows_removed = 0 ∧
      (diffBody c6wOptsCi c6wProd c6wDev).rows_updated = 0 ∧
      (diffBody c6wOptsCi c6wProd c6wDev).rows_updated_excluded_only = 0) := by
  constructor
  · have h := c6_case_sensitivity_amended c1Opts c6wProd c6wDev _ rfl
    have hsp : (mapGet (prodIndexOf c1Opts c6wProd c6wDev) "1").isSome = true := by decide
    have hsd : (mapGet (devIndexOf c1Opts c6wProd c6wDev) "1").isSome = true := by decide
    obtain ⟨p, hp⟩ := Option.isSome_iff_exists.mp hsp
    obtain ⟨d, hd⟩ := Option.isSome_iff_exists.mp hsd
    have hfne : (mapGet (prodIndexOf c1Opts c6wProd c6wDev) "1").map (fun e => e.fullHash) ≠
        (mapGet (devIndexOf c1Opts c6wProd c6wDev) "1").map (fun e => e.fullHash) := by decide
    have hfull : p.fullHash ≠ d.fullHash := by
      intro hc
      apply hfne
      rw [hp, hd, Option.map_some', Option.map_some', hc]
    exact h.1 rfl "1" p d hp hd hfull
  · have h := c6_case_sensitivity_amended c6wOptsCi c6wProd c6wDev _ rfl
    exact h.2 rfl (by decide)

/-! ## Claim C7: totality and missing-cell semantics -/

/-- A row in which every listed column is present, absent cells filled with
the empty string. -/
def fillRow (headers : List String) (r : Row) : Row :=
  headers.map fun h => (h, cellD r h)

/-- The completion of a dataset: every row filled to the full header list. -/
def fillCsv (csv : ParsedCSV) : ParsedCSV :=
  ⟨csv.headers, csv.rows.map (fillRow csv.headers), csv.rowCount⟩

theorem getCell_fillRow (hs : List String) (r : Row) (k : String) (hk : k ∈ hs) :
    getCell (fillRow hs r) k = some (cellD r k) := by
  induction hs with
  | nil => simp at hk
  | cons h t ih =>
    by_cases he : h = k
    · subst he
      simp [fillRow, getCell, List.find?_cons_of_pos]
    · have hb : (h == k) = false := by simpa using he
      rcases List.mem_cons.mp hk with h1 | h2
      · exact absurd h1.symm he
      · show getCell ((h, cellD r h) :: fillRow t r) k = some (cellD r k)
        rw [show getCell ((h, cellD r h) :: fillRow t r) k = getCell (fillRow t r) k from
          mapGet_cons_of_ne _ _ _ he]
        exact ih h2

theorem cellD_fillRow (hs : List String) (r : Row) (k : String) (hk : k ∈ hs) :
    cellD (fillRow hs r) k = cellD r k := by
  rw [cellD, getCell_fillRow hs r k hk]
  rfl

theorem mem_common_left (prodCsv devCsv : ParsedCSV) (k : String)
    (hk : k ∈ commonKeysOf prodCsv devCsv) : k ∈ prodCsv.headers :=
  (mem_dedupFirst _ _).mp (List.mem_filter.mp hk).1

theorem mem_common_right (prodCsv devCsv : ParsedCSV) (k : String)
    (hk : k ∈ commonKeysOf prodCsv devCsv) : k ∈ devCsv.headers := by
  have := (List.mem_filter.mp hk).2
  simpa using this

/-- Claim C7: under the sole precondition that every primary-key column
appears in both datasets' headers, `computeDiff` returns a report (first
conjunct); a missing cell is treated as the empty string in composite-key
construction and hashing (second conjunct: filling all missing cells with
empty strings changes neither), and in normalized column comparison (third
part of the second conjunct); consequently the whole diff's count fields are
unchanged by filling missing cells (third conjunct). -/
theorem c7_totality_missing_cells (opts : DiffOptions) (prodCsv devCsv : ParsedCSV)
    (hp : ∀ k ∈ opts.primaryKeys, k ∈ prodCsv.headers)
    (hd : ∀ k ∈ opts.primaryKeys, k ∈ devCsv.headers) :
    (∃ r, computeDiff opts prodCsv devCsv = Except.ok r) ∧
    (∀ (row : Row) (ks hs : List String), (∀ k ∈ ks, k ∈ hs) →
      makeCompositeKey (fillRow hs row) ks = makeCompositeKey row ks ∧
      (∀ cs ts, hashRow (fillRow hs row) ks cs ts = hashRow row ks cs ts) ∧
      (∀ k ∈ ks, ∀ cs ts, normalizeValue (cellD (fillRow hs row) k) cs ts =
        normalizeValue (cellD row k) cs ts)) ∧
    (∀ r₁ r₂, computeDiff opts prodCsv devCsv = Except.ok r₁ →
      computeDiff opts (fillCsv prodCsv) (fillCsv devCsv) = Except.ok r₂ →
      r₂.rows_added = r₁.rows_added ∧ r₂.rows_removed = r₁.rows_removed ∧
      r₂.rows_updated = r₁.rows_updated ∧
      r₂.rows_updated_excluded_only = r₁.rows_updated_excluded_only ∧
      r₂.detailed_key_update_counts = r₁.detailed_key_update_counts) := by
  have hmp : missingFrom opts.primaryKeys prodCsv = [] := (missingFrom_eq_nil_iff _ _).mpr hp
  have hmd : missingFrom opts.primaryKeys devCsv = [] := (missingFrom_eq_nil_iff _ _).mpr hd
  refine ⟨⟨diffBody opts prodCsv devCsv,
    (computeDiff_ok_iff opts prodCsv devCsv _).mpr ⟨hmp, hmd, rfl⟩⟩, ?_, ?_⟩
  · intro row ks hs hsub
    refine ⟨makeCompositeKey_congr _ _ ks (fun k hk => cellD_fillRow hs row k (hsub k hk)),
      fun cs ts => hashRow_congr_cellD _ _ ks cs ts
        (fun k hk => cellD_fillRow hs row k (hsub k hk)),
      fun k hk cs ts => by rw [cellD_fillRow hs row k (hsub k hk)]⟩
  · intro r₁ r₂ h₁ h₂
    obtain ⟨-, -, hr₁⟩ := (computeDiff_ok_iff opts prodCsv devCsv r₁).mp h₁
    obtain ⟨-, -, hr₂⟩ := (computeDiff_ok_iff opts (fillCsv prodCsv) (fillCsv devCsv) r₂).mp h₂
    subst hr₁
    subst hr₂
    apply diffBody_counts_congr opts prodCsv devCsv (fillCsv prodCsv) (fillCsv devCsv) rfl rfl
      (pk_mem_common opts prodCsv devCsv hmp hmd)
    · rw [show (fillCsv prodCsv).rows = prodCsv.rows.map (fillRow prodCsv.headers) from rfl]
      apply List.forall₂_map_right_iff.mpr
      apply List.forall₂_same.mpr
      intro a _ k hk
      exact (cellD_fillRow prodCsv.headers a k (mem_common_left prodCsv devCsv k hk)).symm
    · rw [show (fillCsv devCsv).rows = devCsv.rows.map (fillRow devCsv.headers) from rfl]
      apply List.forall₂_map_right_iff.mpr
      apply List.forall₂_same.mpr
      intro a _ k hk
      exact (cellD_fillRow devCsv.headers a k (mem_common_right prodCsv devCsv k hk)).symm

/-- C7 witness baseline: the single row lacks the `name` column entirely. -/
def c7wProd : ParsedCSV := ⟨["id", "name"], [[("id", "1")]], 1⟩

/-- C7 witness candidate: `name` present but empty. -/
def c7wDev : ParsedCSV := ⟨["id", "name"], [[("id", "1"), ("name", "")]], 1⟩

/-- Claim C7, witness: a dataset pair with a row missing a column still
produces a report, and filling the missing cells leaves the count fields
unchanged. -/
theorem c7_witness :
    (∃ r, computeDiff c1Opts c7wProd c7wDev = Except.ok r) ∧
    makeCompositeKey (fillRow ["id", "name"] [("id", "1")]) ["id"] =
      makeCompositeKey [("id", "1")] ["id"] ∧
    (diffBody c1Opts (fillCsv c7wProd) (fillCsv c7wDev)).rows_updated =
      (diffBody c1Opts c7wProd c7wDev).rows_updated := by
  have h := c7_totality_missing_cells c1Opts c7wProd c7wDev (by decide) (by decide)
  exact ⟨h.1, (h.2.1 [("id", "1")] ["id"] ["id", "name"] (by decide)).1,
    (h.2.2 _ _ rfl rfl).2.2.1⟩

/-- Claim C10: two invocations whose inputs have the same headers and whose
rows agree on every column common to both datasets (values in non-common
columns may differ arbitrarily) produce identical `rows_added`,
`rows_removed`, `rows_updated`, `rows_updated_excluded_only`, and
`detailed_key_update_counts`. -/
theorem c10_non_common_no_influence (opts : DiffOptions)
    (prod₁ dev₁ prod₂ dev₂ : ParsedCSV) (r₁ r₂ : DiffResult)
    (hph : prod₁.headers = prod₂.headers) (hdh : dev₁.headers = dev₂.headers)
    (hpr : List.Forall₂ (fun a b => ∀ k ∈ commonKeysOf prod₁ dev₁, getCell a k = getCell b k)
      prod₁.rows prod₂.rows)
    (hdr : List.Forall₂ (fun a b => ∀ k ∈ commonKeysOf prod₁ dev₁, getCell a k = getCell b k)
      dev₁.rows dev₂.rows)
    (h₁ : computeDiff opts prod₁ dev₁ = Except.ok r₁)
    (h₂ : computeDiff opts prod₂ dev₂ = Except.ok r₂) :
    r₂.rows_added = r₁.rows_added ∧ r₂.rows_removed = r₁.rows_removed ∧
    r₂.rows_updated = r₁.rows_updated ∧
    r₂.rows_updated_excluded_only = r₁.rows_updated_excluded_only ∧
    r₂.detailed_key_update_counts = r₁.detailed_key_update_counts := by
  obtain ⟨hmp, hmd, hr₁⟩ := (computeDiff_ok_iff opts prod₁ dev₁ r₁).mp h₁
  obtain ⟨-, -, hr₂⟩ := (computeDiff_ok_iff opts prod₂ dev₂ r₂).mp h₂
  subst hr₁
  subst hr₂
  apply diffBody_counts_congr opts prod₁ dev₁ prod₂ dev₂ hph hdh
    (pk_mem_common opts prod₁ dev₁ hmp hmd)
  · apply hpr.imp
    intro a b hab k hk
    rw [cellD, cellD, hab k hk]
  · apply hdr.imp
    intro a b hab k hk
    rw [cellD, cellD, hab k hk]

/-- C10 witness, first baseline: `extra` is a production-only column with
value `AAA`. -/
def c10wProd1 : ParsedCSV := ⟨["id", "extra"], [[("id", "1"), ("extra", "AAA")]], 1⟩

/-- C10 witness, second baseline: identical except `extra` is `BBB`. -/
def c10wProd2 : ParsedCSV := ⟨["id", "extra"], [[("id", "1"), ("extra", "BBB")]], 1⟩

/-- C10 witness candidate (no `extra` column, so `extra` is non-common). -/
def c10wDev : ParsedCSV := ⟨["id"], [[("id", "1")]], 1⟩

/-- Claim C10, witness: changing only the production-only `extra` value
leaves all five count fields unchanged. -/
theorem c10_witness :
    (diffBody c1Opts c10wProd2 c10wDev).rows_added =
      (diffBody c1Opts c10wProd1 c10wDev).rows_added ∧
    (diffBody c1Opts c10wProd2 c10wDev).rows_removed =
      (diffBody c1Opts c10wProd1 c10wDev).rows_removed ∧
    (diffBody c1Opts c10wProd2 c10wDev).rows_updated =
      (diffBody c1Opts c10wProd1 c10wDev).rows_updated ∧
    (diffBody c1Opts c10wProd2 c10wDev).rows_updated_excluded_only =
      (diffBody c1Opts c10wProd1 c10wDev).rows_updated_excluded_only ∧
    (diffBody c1Opts c10wProd2 c10wDev).detailed_key_update_counts =
      (diffBody c1Opts c10wProd1 c10wDev).detailed_key_update_counts :=
  c10_non_common_no_influence c1Opts c10wProd1 c10wDev c10wProd2 c10wDev _ _
    rfl rfl (by decide) (by decide) rfl rfl

end CsvDiff
